import Mathlib

/-!
Verification development for the DOC_compare document comparison and merge
backend.  The definitions below are a shallow embedding of
`backend/services/merge_engine.py` (class `MergeEngine`) and
`backend/services/diff_engine.py` (class `DiffEngine`).

Modelling conventions:
* Python `str` is modelled as Lean `String` (a list of unicode characters);
  character-level scanning is done on `String.data : List Char`.
* Python `float` is modelled as exact `Rat` arithmetic.  Since batteries marks
  `Rat.mul` etc. `irreducible`, we use kernel-reducible wrappers built on
  `mkRat`.  None of the numeric comparisons in the claims sit on a float
  rounding boundary.
* Python functions that can raise (`max()` of an empty sequence, list index out
  of range) are modelled with `Option`, `none` meaning an uncaught exception.
* `difflib.SequenceMatcher` is embedded with no junk heuristic.  The merge
  engine passes `autojunk=False`; the diff engine uses the default, whose junk
  heuristic only activates on sequences of length at least 200, far beyond the
  concrete inputs evaluated here.
* Loops whose index does not advance structurally take an explicit fuel
  argument; each caller passes fuel that dominates the loop's trip count.
-/

set_option maxRecDepth 4000

namespace DocCompare

/-! ### Python-level rational helpers (floats as exact rationals) -/

/-- Multiplication on `Rat` via `mkRat` (kernel reducible, unlike `Rat.mul`). -/
def qMul (a b : Rat) : Rat := mkRat (a.num * b.num) (a.den * b.den)

/-- Subtraction on `Rat` via `mkRat`. -/
def qSub (a b : Rat) : Rat := mkRat (a.num * b.den - b.num * a.den) (a.den * b.den)

/-- Addition on `Rat` via `mkRat`. -/
def qAdd (a b : Rat) : Rat := mkRat (a.num * b.den + b.num * a.den) (a.den * b.den)

/-- Division on `Rat` via `mkRat`; division by zero yields zero (all call
sites guard against a zero denominator, mirroring the Python code). -/
def qDiv (a b : Rat) : Rat :=
  let n := a.num * b.den
  let d := a.den * b.num
  if 0 ≤ d then mkRat n d.toNat else mkRat (-n) (-d).toNat

/-- Nat as `Rat` without going through Mathlib cast instances. -/
def qOfNat (n : Nat) : Rat := mkRat (Int.ofNat n) 1

/-- `round(q)` to an integer, half away from zero for nonnegative values
(adequate for this code base: every rounded quantity is a nonnegative
similarity or percentage, never on an exact half boundary). -/
def pyRoundInt (q : Rat) : Int := Int.ediv (2 * q.num + Int.ofNat q.den) (2 * Int.ofNat q.den)

/-- Python `round(x, 2)`. -/
def pyRound2 (q : Rat) : Rat := mkRat (pyRoundInt (qMul q (qOfNat 100))) 100

/-- Python `round(x, 3)`. -/
def pyRound3 (q : Rat) : Rat := mkRat (pyRoundInt (qMul q (qOfNat 1000))) 1000

/-! ### Python string helpers -/

/-- Python `str.lower` restricted to the alphabets appearing in the sources:
ASCII letters and Cyrillic (А-Я and Ё). -/
def pyLowerChar (c : Char) : Char :=
  let n := c.toNat
  if 65 ≤ n ∧ n ≤ 90 then Char.ofNat (n + 32)
  else if 0x410 ≤ n ∧ n ≤ 0x42F then Char.ofNat (n + 32)
  else if n = 0x401 then Char.ofNat 0x451
  else c

/-- Python `str.lower` on a whole string. -/
def pyLower (s : String) : String := ⟨s.data.map pyLowerChar⟩

/-- Python whitespace characters as matched by `\s` for the inputs in scope. -/
def pyIsSpace (c : Char) : Bool :=
  c = ' ' ∨ c = '\t' ∨ c = '\n' ∨ c = '\r' ∨ c = Char.ofNat 11 ∨ c = Char.ofNat 12

/-- Python truthiness of `line.strip()`: the line has a non-whitespace char. -/
def stripNonEmpty (s : String) : Bool := s.data.any (fun c => ¬ pyIsSpace c)

/-- Auxiliary for `pySplitlines`: split on newline characters. -/
def splitlinesAux : List Char → List Char → List String
  | [], acc => if acc.isEmpty then [] else [⟨acc.reverse⟩]
  | c :: cs, acc =>
    if c = '\n' then ⟨acc.reverse⟩ :: splitlinesAux cs []
    else splitlinesAux cs (c :: acc)

/-- Python `str.splitlines()` (newline-only model: every input text in the
claims uses `\n` separators; a trailing newline yields no extra line). -/
def pySplitlines (s : String) : List String := splitlinesAux s.data []

/-- Python `"\n".join(lines)`. -/
def joinNL (lines : List String) : String := String.intercalate "\n" lines

/-- Substring occurrence on character lists (Python `needle in hay`). -/
def subOf : List Char → List Char → Bool
  | hay, needle =>
    needle.isPrefixOf hay ||
      match hay with
      | [] => false
      | _ :: t => subOf t needle

/-- Substring test, Python `needle in hay`. -/
def strContains (hay needle : String) : Bool := subOf hay.data needle.data

/-- Python `text[:n]`. -/
def pyTake (s : String) (n : Nat) : String := ⟨s.data.take n⟩

/-! ### Regex scanners

The sources use three regular expressions on data paths relevant to the
claims: `\d+[.,]?\d*` (numbers), `\d+` (integer runs) and
`\d{1,2}[./]\d{1,2}[./]\d{2,4}` (dates).  Each is embedded as a left-to-right,
non-overlapping, greedy scanner, exactly as `re.findall` behaves for these
patterns.  `\d` is modelled as ASCII digits (the inputs in scope contain no
other Unicode digits). -/

/-- One greedy match of `\d+[.,]?\d*` starting at the head (head is a digit). -/
def numTokenHere (l : List Char) : List Char × List Char :=
  let p := List.span Char.isDigit l
  match p.2 with
  | s :: r2 =>
    if s = '.' ∨ s = ',' then
      let p2 := List.span Char.isDigit r2
      (p.1 ++ s :: p2.1, p2.2)
    else (p.1, p.2)
  | [] => (p.1, [])

/-- `re.findall(r'\d+[.,]?\d*', text)` (fuel = length of the remaining input). -/
def findNumbersAux : Nat → List Char → List String
  | 0, _ => []
  | _, [] => []
  | fuel + 1, c :: cs =>
    if c.isDigit then
      let p := numTokenHere (c :: cs)
      String.mk p.1 :: findNumbersAux fuel p.2
    else findNumbersAux fuel cs

/-- `re.findall(r'\d+[.,]?\d*', text)`. -/
def findNumbers (s : String) : List String := findNumbersAux s.data.length s.data

/-- `re.findall(r'\d+', text)` (fuel-driven scanner). -/
def findIntRunsAux : Nat → List Char → List String
  | 0, _ => []
  | _, [] => []
  | fuel + 1, c :: cs =>
    if c.isDigit then
      let p := List.span Char.isDigit (c :: cs)
      String.mk p.1 :: findIntRunsAux fuel p.2
    else findIntRunsAux fuel cs

/-- `re.findall(r'\d+', text)`. -/
def findIntRuns (s : String) : List String := findIntRunsAux s.data.length s.data

/-- Take exactly `n` digit characters from the front. -/
def takeNDigits : Nat → List Char → Option (List Char × List Char)
  | 0, l => some ([], l)
  | n + 1, c :: cs =>
    if c.isDigit then (takeNDigits n cs).map (fun p => (c :: p.1, p.2)) else none
  | _ + 1, [] => none

/-- One match attempt of `\d{1,2}[./]\d{1,2}[./]\d{2,4}` at the head, with the
greedy-then-backtrack order of the regex engine. -/
def dateTokenHere (l : List Char) : Option (List Char × List Char) :=
  let sep : Char → Bool := fun c => c = '.' ∨ c = '/'
  let tail3 : List Char → Option (List Char × List Char) := fun r =>
    (takeNDigits 4 r) <|> (takeNDigits 3 r) <|> (takeNDigits 2 r)
  let tail2 : List Char → Option (List Char × List Char) := fun r =>
    match r with
    | s2 :: r4 =>
      if sep s2 then (tail3 r4).map (fun p => (s2 :: p.1, p.2)) else none
    | [] => none
  let mid : List Char → Option (List Char × List Char) := fun r =>
    ((takeNDigits 2 r).bind fun p => (tail2 p.2).map fun q => (p.1 ++ q.1, q.2)) <|>
    ((takeNDigits 1 r).bind fun p => (tail2 p.2).map fun q => (p.1 ++ q.1, q.2))
  let top : List Char → Option (List Char × List Char) := fun r =>
    match r with
    | s1 :: r2 =>
      if sep s1 then (mid r2).map (fun p => (s1 :: p.1, p.2)) else none
    | [] => none
  ((takeNDigits 2 l).bind fun p => (top p.2).map fun q => (p.1 ++ q.1, q.2)) <|>
  ((takeNDigits 1 l).bind fun p => (top p.2).map fun q => (p.1 ++ q.1, q.2))

/-- `re.findall(r'\d{1,2}[./]\d{1,2}[./]\d{2,4}', text)` (fuel-driven). -/
def findDatesAux : Nat → List Char → List String
  | 0, _ => []
  | _, [] => []
  | fuel + 1, c :: cs =>
    match dateTokenHere (c :: cs) with
    | some p => String.mk p.1 :: findDatesAux fuel p.2
    | none => findDatesAux fuel cs

/-- `re.findall(r'\d{1,2}[./]\d{1,2}[./]\d{2,4}', text)`. -/
def findDates (s : String) : List String := findDatesAux s.data.length s.data

/-- Python `float(tok.replace(',', '.'))` for a token matched by
`\d+[.,]?\d*`. -/
def floatOfToken (s : String) : Rat :=
  let p := List.span Char.isDigit s.data
  let intDigits := p.1
  let fracDigits := match p.2 with
    | _ :: r => (List.span Char.isDigit r).1
    | [] => []
  let intVal : Nat := intDigits.foldl (fun a c => a * 10 + (c.toNat - 48)) 0
  let fracVal : Nat := fracDigits.foldl (fun a c => a * 10 + (c.toNat - 48)) 0
  qAdd (qOfNat intVal) (mkRat (Int.ofNat fracVal) (10 ^ fracDigits.length))

/-- Python `int(tok)` for a digit run. -/
def intOfToken (s : String) : Nat := s.data.foldl (fun a c => a * 10 + (c.toNat - 48)) 0

/-- Python `set(a) == set(b)` for lists of strings. -/
def listSetEq (a b : List String) : Bool := a.all (b.contains ·) && b.all (a.contains ·)

/-- Python `list(set(a))`, modelled as first-occurrence deduplication (the
claims only exercise this on singleton sets, where the order is forced). -/
def pyListOfSet : List String → List String
  | [] => []
  | x :: xs => if xs.contains x then pyListOfSet xs else x :: pyListOfSet xs

/-! ### difflib.SequenceMatcher -/

/-- Opcode tags of `SequenceMatcher.get_opcodes()`. -/
inductive Tag where
  | equal | replace | delete | insert
deriving DecidableEq, Repr

/-- One opcode `(tag, i1, i2, j1, j2)`. -/
structure Opcode where
  tag : Tag
  i1 : Nat
  i2 : Nat
  j1 : Nat
  j2 : Nat
deriving DecidableEq, Repr

section SequenceMatcher

variable {α : Type} [DecidableEq α]

/-- Length of the common block of `a` and `b` ending exactly at positions
`alo + di` / `blo + dj`, not reaching left of `alo` / `blo`.  This is the
quantity difflib's `j2len` rolling row computes for `find_longest_match`. -/
def suffLen (a b : List α) (alo blo : Nat) : Nat → Nat → Nat
  | 0, dj => if a.get? alo = b.get? (blo + dj) ∧ (a.get? alo).isSome then 1 else 0
  | di + 1, 0 =>
    if a.get? (alo + di + 1) = b.get? blo ∧ (b.get? blo).isSome then 1 else 0
  | di + 1, dj + 1 =>
    if a.get? (alo + di + 1) = b.get? (blo + dj + 1) ∧ (a.get? (alo + di + 1)).isSome then
      suffLen a b alo blo di dj + 1
    else 0

/-- Candidate ending offsets of `find_longest_match`, in difflib's scan order
(outer loop over `a`-positions, inner over `b`-positions). -/
def flmCells (n m : Nat) : List (Nat × Nat) :=
  (List.range n).flatMap fun di => (List.range m).map fun dj => (di, dj)

/-- `SequenceMatcher.find_longest_match(alo, ahi, blo, bhi)` with no junk:
returns `(besti, bestj, bestsize)`.  difflib keeps the first block (in scan
order) strictly longer than the best so far, i.e. the earliest block of
maximal size; a right fold preferring the left candidate on ties computes the
same triple.  The junk extension loops of CPython are provably no-ops when
there is no junk and are omitted. -/
def findLongestMatch (a b : List α) (alo ahi blo bhi : Nat) : Nat × Nat × Nat :=
  (flmCells (ahi - alo) (bhi - blo)).foldr
    (fun p best =>
      let k := suffLen a b alo blo p.1 p.2
      if k ≠ 0 ∧ k ≥ best.2.2 then (alo + p.1 + 1 - k, blo + p.2 + 1 - k, k) else best)
    (alo, blo, 0)

/-- The recursive block collection of `get_matching_blocks` (CPython collects
with a queue and sorts; collecting left subrange, block, right subrange in
order yields the same sorted list). -/
def matchingBlocksAux (a b : List α) : Nat → Nat → Nat → Nat → Nat → List (Nat × Nat × Nat)
  | 0, _, _, _, _ => []
  | fuel + 1, alo, ahi, blo, bhi =>
    let t := findLongestMatch a b alo ahi blo bhi
    if t.2.2 = 0 then []
    else
      matchingBlocksAux a b fuel alo t.1 blo t.2.1 ++
        t :: matchingBlocksAux a b fuel (t.1 + t.2.2) ahi (t.2.1 + t.2.2) bhi

/-- The adjacent-block merging pass of `get_matching_blocks`. -/
def mergeAdjacent : List (Nat × Nat × Nat) → Nat × Nat × Nat → List (Nat × Nat × Nat)
  | [], acc => if acc.2.2 ≠ 0 then [acc] else []
  | (la, lb, sz) :: rest, (i1, j1, k1) =>
    if i1 + k1 = la ∧ j1 + k1 = lb then mergeAdjacent rest (i1, j1, k1 + sz)
    else
      (if k1 ≠ 0 then [(i1, j1, k1)] else []) ++ mergeAdjacent rest (la, lb, sz)

/-- `SequenceMatcher.get_matching_blocks()`, including the `(la, lb, 0)`
sentinel. -/
def getMatchingBlocks (a b : List α) : List (Nat × Nat × Nat) :=
  mergeAdjacent (matchingBlocksAux a b (a.length + b.length + 1) 0 a.length 0 b.length)
      (0, 0, 0) ++ [(a.length, b.length, 0)]

/-- The opcode walk of `get_opcodes` over the matching blocks. -/
def opcodesWalk : List (Nat × Nat × Nat) → Nat → Nat → List Opcode
  | [], _, _ => []
  | (ai, bj, sz) :: rest, i, j =>
    let gap : List Opcode :=
      if i < ai ∧ j < bj then [⟨Tag.replace, i, ai, j, bj⟩]
      else if i < ai then [⟨Tag.delete, i, ai, j, bj⟩]
      else if j < bj then [⟨Tag.insert, i, ai, j, bj⟩]
      else []
    gap ++ (if sz ≠ 0 then [⟨Tag.equal, ai, ai + sz, bj, bj + sz⟩] else []) ++
      opcodesWalk rest (ai + sz) (bj + sz)

/-- `SequenceMatcher.get_opcodes()`. -/
def getOpcodes (a b : List α) : List Opcode := opcodesWalk (getMatchingBlocks a b) 0 0

/-- `SequenceMatcher.ratio()`: `2*M/T`, or `1.0` when both sequences are
empty. -/
def smRatio (a b : List α) : Rat :=
  let m := ((getMatchingBlocks a b).map (fun t => t.2.2)).foldl (· + ·) 0
  let t := a.length + b.length
  if t = 0 then 1 else mkRat (Int.ofNat (2 * m)) t

end SequenceMatcher

/-! ### Merge engine: data model (`merge_engine.py`) -/

/-- An input document `{"id", "content", "name"}`. -/
structure Document where
  id : String
  content : String
  name : String
deriving DecidableEq, Repr

/-- One conflict variant. -/
structure Variant where
  source : String
  content : String
  line_count : Nat
deriving DecidableEq, Repr

/-- The `analysis` dict of a conflict.  `significance` and the number lists
are optional because not every code path sets those keys. -/
structure Analysis where
  type : String
  significance : Option String
  old_numbers : Option (List String)
  new_numbers : Option (List String)
deriving DecidableEq, Repr

/-- One conflict record.  `similarity` and `analysis` are optional: the
three-way MANUAL one-sided conflicts omit those keys. -/
structure Conflict where
  index : Nat
  location : String
  type : String
  variants : List Variant
  similarity : Option Rat
  consensus_variant : Option Nat
  analysis : Option Analysis
deriving DecidableEq, Repr

/-- Result of `MergeEngine.merge` (stats as a key/value list, since the keys
differ per merge kind). -/
structure MergeResult where
  merged_content : String
  conflicts : List Conflict
  auto_resolved : Nat
  merge_stats : List (String × Int)
deriving DecidableEq, Repr

/-- A caller resolution `{"conflict_index", "chosen_variant_index"}`; both are
arbitrary Python ints. -/
structure Resolution where
  conflict_index : Int
  chosen_variant_index : Int
deriving DecidableEq, Repr

/-- The conflict placeholder `f"<<<CONFLICT_{idx}>>>"`. -/
def conflictToken (idx : Int) : String := "<<<CONFLICT_" ++ toString idx ++ ">>>"

/-- `MergeEngine._split_into_blocks`. -/
def split_into_blocks (text : String) : List String :=
  if text = "" then [] else pySplitlines text

/-- `MergeEngine._calculate_similarity`. -/
def calculate_similarity (text1 text2 : String) : Rat :=
  if text1 = "" ∨ text2 = "" then 0
  else smRatio (pyLower text1).data (pyLower text2).data

/-- `MergeEngine._is_significant_content`: more than 10 non-whitespace
characters remain after stripping `\s+`. -/
def is_significant_content (text : String) : Bool :=
  (text.data.filter (fun c => ¬ pyIsSpace c)).length > 10

/-- `MergeEngine._analyze_conflict`. -/
def analyze_conflict (text1 text2 : String) : Analysis :=
  let a0 : Analysis := ⟨"unknown", some "medium", none, none⟩
  let nums1 := findNumbers text1
  let nums2 := findNumbers text2
  let a1 : Analysis :=
    if ¬ listSetEq nums1 nums2 then
      ⟨"numerical", some "high", some (pyListOfSet nums1), some (pyListOfSet nums2)⟩
    else a0
  let dates1 := findDates text1
  let dates2 := findDates text2
  let a2 : Analysis :=
    if ¬ listSetEq dates1 dates2 then
      { a1 with type := "temporal", significance := some "high" }
    else a1
  let legal_terms := ["liability", "penalty", "fine", "obligation", "right"]
  if legal_terms.any (fun term => strContains (pyLower (text1 ++ text2)) term) then
    { a2 with type := "legal", significance := some "critical" }
  else a2

/-- Python `lines[a:b]`. -/
def pySlice (l : List String) (a b : Nat) : List String := (l.drop a).take (b - a)

/-- Accumulator state of the `_two_way_merge` opcode loop. -/
structure MState where
  merged : List String
  conflicts : List Conflict
  conflict_idx : Nat
  auto_resolved : Nat
deriving Repr

/-- One opcode iteration of `MergeEngine._two_way_merge`.  Note the AUTO
insert branch: the recorded resolved `INSERT` conflict reuses the current
`conflict_idx` and the code does not increment the counter there. -/
def twoWayStep (doc1 doc2 : Document) (lines1 lines2 : List String) (allow : Bool)
    (st : MState) (op : Opcode) : MState :=
  match op.tag with
  | Tag.equal => { st with merged := st.merged ++ pySlice lines1 op.i1 op.i2 }
  | Tag.replace =>
    let old_text := joinNL (pySlice lines1 op.i1 op.i2)
    let new_text := joinNL (pySlice lines2 op.j1 op.j2)
    let similarity := calculate_similarity old_text new_text
    if allow && decide (similarity > mkRat 85 100) then
      { st with merged := st.merged ++ pySlice lines2 op.j1 op.j2,
                auto_resolved := st.auto_resolved + 1 }
    else
      { st with
        conflicts := st.conflicts ++
          [⟨st.conflict_idx,
            "lines " ++ toString (op.i1 + 1) ++ "-" ++ toString op.i2,
            "REPLACE",
            [⟨doc1.name, old_text, op.i2 - op.i1⟩, ⟨doc2.name, new_text, op.j2 - op.j1⟩],
            some (pyRound2 similarity), none, some (analyze_conflict old_text new_text)⟩],
        merged := st.merged ++ [conflictToken (Int.ofNat st.conflict_idx)],
        conflict_idx := st.conflict_idx + 1 }
  | Tag.delete =>
    let old_text := joinNL (pySlice lines1 op.i1 op.i2)
    if is_significant_content old_text then
      { st with
        conflicts := st.conflicts ++
          [⟨st.conflict_idx,
            "lines " ++ toString (op.i1 + 1) ++ "-" ++ toString op.i2,
            "DELETE",
            [⟨doc1.name, old_text, op.i2 - op.i1⟩, ⟨doc2.name, "(deleted)", 0⟩],
            some 0, none, some ⟨"deletion", some "high", none, none⟩⟩],
        merged := st.merged ++ [conflictToken (Int.ofNat st.conflict_idx)],
        conflict_idx := st.conflict_idx + 1 }
    else if allow then { st with auto_resolved := st.auto_resolved + 1 }
    else st
  | Tag.insert =>
    let new_text := joinNL (pySlice lines2 op.j1 op.j2)
    if is_significant_content new_text then
      if allow then
        { st with
          conflicts := st.conflicts ++
            [⟨st.conflict_idx,
              "after line " ++ toString op.i1,
              "INSERT",
              [⟨doc1.name, "(absent)", 0⟩, ⟨doc2.name, new_text, op.j2 - op.j1⟩],
              some 0, some 1, some ⟨"addition", some "medium", none, none⟩⟩],
          merged := st.merged ++ pySlice lines2 op.j1 op.j2 }
      else
        { st with
          conflicts := st.conflicts ++
            [⟨st.conflict_idx,
              "after line " ++ toString op.i1,
              "INSERT",
              [⟨doc1.name, "(absent)", 0⟩, ⟨doc2.name, new_text, op.j2 - op.j1⟩],
              some 0, none, some ⟨"addition", some "medium", none, none⟩⟩],
          merged := st.merged ++ [conflictToken (Int.ofNat st.conflict_idx)],
          conflict_idx := st.conflict_idx + 1 }
    else
      { st with merged := st.merged ++ pySlice lines2 op.j1 op.j2,
                auto_resolved := st.auto_resolved + (if allow then 1 else 0) }

/-- `MergeEngine._two_way_merge`. -/
def two_way_merge (doc1 doc2 : Document) (strategy : String) : MergeResult :=
  let lines1 := split_into_blocks doc1.content
  let lines2 := split_into_blocks doc2.content
  let allow := strategy ≠ "MANUAL"
  let ops := getOpcodes lines1 lines2
  let st := ops.foldl (twoWayStep doc1 doc2 lines1 lines2 allow) ⟨[], [], 0, 0⟩
  { merged_content := joinNL st.merged,
    conflicts := st.conflicts,
    auto_resolved := st.auto_resolved,
    merge_stats :=
      [("total_blocks", Int.ofNat (lines1.length + lines2.length)),
       ("unchanged", Int.ofNat (ops.countP (fun op => op.tag = Tag.equal))),
       ("merged", Int.ofNat st.auto_resolved),
       ("conflicts", Int.ofNat st.conflicts.length)] }

/-! ### Merge engine: three-way and multi-way merges -/

/-- One entry of the `changes` dict built by `MergeEngine._extract_changes`. -/
structure Change3 where
  type : String
  content : String
  length : Nat
deriving DecidableEq, Repr

/-- `MergeEngine._extract_changes`: later writes win, so entries are
prepended and looked up front-first. -/
def extract_changes (opcodes : List Opcode) (modified : List String) :
    List (Nat × Change3) :=
  opcodes.foldl
    (fun acc op =>
      match op.tag with
      | Tag.replace =>
        (List.range (op.i2 - op.i1)).foldl
          (fun a off =>
            if op.j1 + off < op.j2 then
              (op.i1 + off, ⟨"replace", modified.getD (op.j1 + off) "", 1⟩) :: a
            else a)
          acc
      | Tag.delete =>
        (List.range (op.i2 - op.i1)).foldl
          (fun a off => (op.i1 + off, ⟨"delete", "", op.i2 - op.i1⟩) :: a)
          acc
      | Tag.insert =>
        if op.i1 > 0 then
          (op.i1 - 1, ⟨"insert", joinNL (pySlice modified op.j1 op.j2), op.j2 - op.j1⟩) :: acc
        else acc
      | Tag.equal => acc)
    []

/-- The `while i < len(base_lines)` loop of `MergeEngine._three_way_merge`
(fuel dominates the trip count; every iteration advances `i` by at least 1 on
the inputs produced by `_extract_changes`). -/
def threeWayLoop (base_lines : List String) (doc1 doc2 : Document)
    (changes1 changes2 : List (Nat × Change3)) (allow : Bool) :
    Nat → Nat → MState → MState
  | 0, _, st => st
  | fuel + 1, i, st =>
    if i < base_lines.length then
      let change1 := changes1.lookup i
      let change2 := changes2.lookup i
      match change1, change2 with
      | none, none =>
        threeWayLoop base_lines doc1 doc2 changes1 changes2 allow fuel (i + 1)
          { st with merged := st.merged ++ [base_lines.getD i ""] }
      | some c1, none =>
        if allow then
          let st' :=
            if c1.type = "delete" then st
            else { st with merged := st.merged ++ [c1.content] }
          threeWayLoop base_lines doc1 doc2 changes1 changes2 allow fuel
            (if c1.type = "delete" then i + c1.length else i + 1)
            { st' with auto_resolved := st'.auto_resolved + 1 }
        else
          threeWayLoop base_lines doc1 doc2 changes1 changes2 allow fuel (i + 1)
            { st with
              conflicts := st.conflicts ++
                [⟨st.conflict_idx, "line " ++ toString (i + 1), "THREE_WAY",
                  [⟨"Base", base_lines.getD i "", 1⟩, ⟨doc1.name, c1.content, 1⟩],
                  none, none, none⟩],
              merged := st.merged ++ [conflictToken (Int.ofNat st.conflict_idx)],
              conflict_idx := st.conflict_idx + 1 }
      | none, some c2 =>
        if allow then
          let st' :=
            if c2.type = "delete" then st
            else { st with merged := st.merged ++ [c2.content] }
          threeWayLoop base_lines doc1 doc2 changes1 changes2 allow fuel
            (if c2.type = "delete" then i + c2.length else i + 1)
            { st' with auto_resolved := st'.auto_resolved + 1 }
        else
          threeWayLoop base_lines doc1 doc2 changes1 changes2 allow fuel (i + 1)
            { st with
              conflicts := st.conflicts ++
                [⟨st.conflict_idx, "line " ++ toString (i + 1), "THREE_WAY",
                  [⟨"Base", base_lines.getD i "", 1⟩, ⟨doc2.name, c2.content, 1⟩],
                  none, none, none⟩],
              merged := st.merged ++ [conflictToken (Int.ofNat st.conflict_idx)],
              conflict_idx := st.conflict_idx + 1 }
      | some c1, some c2 =>
        if allow && c1.content = c2.content then
          threeWayLoop base_lines doc1 doc2 changes1 changes2 allow fuel (i + 1)
            { st with merged := st.merged ++ [c1.content],
                      auto_resolved := st.auto_resolved + 1 }
        else
          threeWayLoop base_lines doc1 doc2 changes1 changes2 allow fuel (i + 1)
            { st with
              conflicts := st.conflicts ++
                [⟨st.conflict_idx, "line " ++ toString (i + 1), "THREE_WAY",
                  [⟨"Base", base_lines.getD i "", 1⟩, ⟨doc1.name, c1.content, 1⟩,
                   ⟨doc2.name, c2.content, 1⟩],
                  some (calculate_similarity c1.content c2.content), none,
                  some (analyze_conflict c1.content c2.content)⟩],
              merged := st.merged ++ [conflictToken (Int.ofNat st.conflict_idx)],
              conflict_idx := st.conflict_idx + 1 }
    else st

/-- `MergeEngine._three_way_merge`. -/
def three_way_merge (base doc1 doc2 : Document) (strategy : String) : MergeResult :=
  let base_lines := split_into_blocks base.content
  let lines1 := split_into_blocks doc1.content
  let lines2 := split_into_blocks doc2.content
  let allow := strategy ≠ "MANUAL"
  let changes1 := extract_changes (getOpcodes base_lines lines1) lines1
  let changes2 := extract_changes (getOpcodes base_lines lines2) lines2
  let st := threeWayLoop base_lines doc1 doc2 changes1 changes2 allow
    (base_lines.length + 1) 0 ⟨[], [], 0, 0⟩
  { merged_content := joinNL st.merged,
    conflicts := st.conflicts,
    auto_resolved := st.auto_resolved,
    merge_stats :=
      [("total_blocks", Int.ofNat base_lines.length),
       ("unchanged", Int.ofNat base_lines.length - Int.ofNat changes1.length -
          Int.ofNat changes2.length),
       ("merged", Int.ofNat st.auto_resolved),
       ("conflicts", Int.ofNat st.conflicts.length)] }

/-- Insertion-ordered variant grouping of `_multi_way_merge` (a Python dict
keyed by line content, values are document index lists). -/
def addVariantEntry : List (String × List Nat) → String → Nat → List (String × List Nat)
  | [], line, i => [(line, [i])]
  | (l, is) :: rest, line, i =>
    if l = line then (l, is ++ [i]) :: rest else (l, is) :: addVariantEntry rest line i

/-- Python `max(range(len(xs)), key=lambda i: f(xs[i]))`: first index of the
maximal value. -/
def argmaxFirst (xs : List Nat) : Nat :=
  (xs.enum.foldl (fun best p => if p.2 > best.2 then p else best) (0, xs.headD 0)).1

/-- `MergeEngine._multi_way_merge`. -/
def multi_way_merge (documents : List Document) (strategy : String)
    (base_doc : Option Document) : MergeResult :=
  let all_lines := documents.map (fun d => split_into_blocks d.content)
  let base_lines :=
    match base_doc with
    | some b => split_into_blocks b.content
    | none => all_lines.getD (argmaxFirst (all_lines.map List.length)) []
  let max_lines := (all_lines.map List.length).foldl Nat.max 0
  let st := (List.range max_lines).foldl
    (fun (st : MState) line_num =>
      let variants := all_lines.enum.foldl
        (fun vs p => if line_num < p.2.length then
            addVariantEntry vs (p.2.getD line_num "") p.1
          else vs)
        ([] : List (String × List Nat))
      if variants.length = 1 then
        { st with merged := st.merged ++ [(variants.headD ("", [])).1] }
      else if strategy = "MOST_RECENT" then
        let last_doc_lines := (all_lines.getLastD [])
        let line :=
          if line_num < last_doc_lines.length then last_doc_lines.getD line_num ""
          else if line_num < base_lines.length then base_lines.getD line_num ""
          else ""
        { st with merged := st.merged ++ [line],
                  auto_resolved := st.auto_resolved + 1 }
      else
        { st with
          conflicts := st.conflicts ++
            [⟨st.conflict_idx, "line " ++ toString (line_num + 1), "MANUAL",
              variants.map (fun p =>
                ⟨(documents.getD (p.2.headD 0) ⟨"", "", ""⟩).name, p.1, 1⟩),
              none, none, some ⟨"manual_review_required", none, none, none⟩⟩],
          merged := st.merged ++ [conflictToken (Int.ofNat st.conflict_idx)],
          conflict_idx := st.conflict_idx + 1 })
    ⟨[], [], 0, 0⟩
  { merged_content := joinNL st.merged,
    conflicts := st.conflicts,
    auto_resolved := st.auto_resolved,
    merge_stats :=
      [("total_blocks", Int.ofNat max_lines),
       ("documents_count", Int.ofNat documents.length),
       ("merged", Int.ofNat st.auto_resolved),
       ("conflicts", Int.ofNat st.conflicts.length)] }

/-- `MergeEngine.merge`: dispatch on document count and base version. -/
def merge (documents : List Document) (strategy : String)
    (base_version_id : Option String) : MergeResult :=
  if documents.length < 2 then
    { merged_content := (documents.headD ⟨"", "", ""⟩).content,
      conflicts := [],
      auto_resolved := 0,
      merge_stats := [("total_blocks", 0), ("unchanged", 0), ("merged", 0)] }
  else
    let base_doc :=
      match base_version_id with
      | some bid => documents.find? (fun d => d.id = bid)
      | none => none
    let docs :=
      match base_doc with
      | some b => documents.filter (fun d => d.id ≠ b.id)
      | none => documents
    match docs, base_doc with
    | [d1, d2], some b => three_way_merge b d1 d2 strategy
    | [d1, d2], none => two_way_merge d1 d2 strategy
    | _, _ => multi_way_merge docs strategy base_doc

/-! ### Python `str.replace` and `MergeEngine.apply_resolutions` -/

/-- Leftmost non-overlapping split of `s` on `t` (Python `s.split(t)` for a
nonempty separator; for an empty separator no split happens, which is all the
call sites need: conflict tokens are never empty).  Fuel dominates the length
of `s`. -/
def splitOnFuel (t : List Char) : Nat → List Char → List Char → List (List Char)
  | 0, s, acc => [acc.reverse ++ s]
  | _ + 1, [], acc => [acc.reverse]
  | fuel + 1, c :: cs, acc =>
    if t.isPrefixOf (c :: cs) ∧ t ≠ [] then
      acc.reverse :: splitOnFuel t fuel ((c :: cs).drop t.length) []
    else splitOnFuel t fuel cs (c :: acc)

/-- Python `s.split(t)` on character lists. -/
def splitOnL (s t : List Char) : List (List Char) := splitOnFuel t s.length s []

/-- Python `s.replace(t, r)`: equal to `r.join(s.split(t))`. -/
def pyReplace (s t r : String) : String :=
  ⟨List.intercalate r.data (splitOnL s.data t.data)⟩

/-- Python list indexing `l[i]` for an arbitrary int `i` (negative indices
count from the end; out of range raises, modelled as `none`). -/
def pyGetList {α : Type} (l : List α) (i : Int) : Option α :=
  if 0 ≤ i then l.get? i.toNat
  else if 0 ≤ i + Int.ofNat l.length then l.get? (i + Int.ofNat l.length).toNat
  else none

/-- The per-resolution normalisation of the chosen replacement text. -/
def resolutionReplacement (v : Variant) : String :=
  if v.content = "(deleted)" ∨ v.content = "(absent)" then "" else v.content

/-- One iteration of the `for resolution in resolutions` loop of
`MergeEngine.apply_resolutions`: the guard `conflict and chosen_variant <
len(variants)` skips silently, Python list indexing may raise (`none`),
otherwise the token is substituted. -/
def applyOneResolution (conflicts : List Conflict) (r : Resolution) (s : String) :
    Option String :=
  match conflicts.find? (fun c => Int.ofNat c.index = r.conflict_index) with
  | none => some s
  | some c =>
    if r.chosen_variant_index < Int.ofNat c.variants.length then
      match pyGetList c.variants r.chosen_variant_index with
      | none => none
      | some v =>
        some (pyReplace s (conflictToken r.conflict_index) (resolutionReplacement v))
    else some s

/-- The whole loop of `MergeEngine.apply_resolutions`; `none` models an
uncaught `IndexError`. -/
def applyResolutionsLoop (conflicts : List Conflict) :
    List Resolution → String → Option String
  | [], s => some s
  | r :: rs, s => (applyOneResolution conflicts r s).bind (applyResolutionsLoop conflicts rs)

/-- `MergeEngine.apply_resolutions` (with `none` for an uncaught exception). -/
def apply_resolutions (merged_content : String) (conflicts : List Conflict)
    (resolutions : List Resolution) : Option String :=
  applyResolutionsLoop conflicts resolutions merged_content

/-! ### Diff engine: change records and helper analyses (`diff_engine.py`) -/

/-- A `Change` record.  Optional fields model dict keys only some code paths
set (`original_html`/`new_html` on inline diffs, `semantic_type` and
`meaning_shift` in semantic mode). -/
structure Change where
  id : String
  type : String
  classification : String
  severity : String
  location : String
  original_text : Option String
  new_text : Option String
  ai_summary : String
  impact_score : Nat
  original_html : Option String
  new_html : Option String
  semantic_type : Option String
  meaning_shift : Option String
deriving DecidableEq, Repr

/-- Python float repr for the nonnegative decimal fractions produced by
`float(tok)` on tokens of `\d+[.,]?\d*` (used only in summary strings). -/
def pyFloatRepr (q : Rat) : String :=
  let ip := q.num.ediv (Int.ofNat q.den)
  let fr0 := q.num.emod (Int.ofNat q.den)
  let digits :=
    (List.range 30).foldl
      (fun (st : Int × List Char) _ =>
        if st.1 = 0 ∧ st.2 ≠ [] then st
        else
          let x := st.1 * 10
          let d := x.ediv (Int.ofNat q.den)
          (x.emod (Int.ofNat q.den), Char.ofNat (48 + d.toNat) :: st.2))
      (fr0, [])
  toString ip ++ "." ++ String.mk digits.2.reverse

/-- `DiffEngine._classify_change`. -/
def classify_change (old new : String) : String :=
  if findNumbers old ≠ findNumbers new then "NUMERICAL_CHANGE"
  else if findDates (old ++ new) ≠ [] then "TEMPORAL_CHANGE"
  else "TEXT_CHANGE"

/-- `DiffEngine._classify_semantic_change`. -/
def classify_semantic_change (old new : String) : String :=
  let combined := pyLower (old ++ new)
  if ["сумм", "рубл", "платеж", "цен"].any (strContains combined) then "FINANCIAL"
  else if ["срок", "дат", "период"].any (strContains combined) then "TEMPORAL"
  else if ["ответственност", "штраф", "обязательств"].any (strContains combined) then
    "LEGAL"
  else "GENERAL"

/-- `DiffEngine._detect_meaning_shift`. -/
def detect_meaning_shift (old new : String) : Option String :=
  let old_nums := (findNumbers old).map floatOfToken
  let new_nums := (findNumbers new).map floatOfToken
  if old_nums ≠ [] ∧ new_nums ≠ [] ∧ old_nums ≠ new_nums then
    let diff := qSub (new_nums.headD 0) (old_nums.headD 0)
    if diff ≠ 0 then
      some ("Числовое значение изменилось: " ++ pyFloatRepr (old_nums.headD 0) ++
        " → " ++ pyFloatRepr (new_nums.headD 0))
    else none
  else none

/-- `DiffEngine._calculate_severity`. -/
def calculate_severity (old new : String) : String :=
  let combined := pyLower (old ++ new)
  let old_nums := (findNumbers old).map floatOfToken
  let new_nums := (findNumbers new).map floatOfToken
  if old_nums ≠ [] ∧ new_nums ≠ [] ∧ old_nums ≠ new_nums then
    let o0 := old_nums.headD 0
    let n0 := new_nums.headD 0
    let denom := if o0 ≥ 1 then o0 else 1
    if qDiv (abs (qSub n0 o0)) denom > mkRat 1 10 then "CRITICAL" else "MAJOR"
  else if ["ответственност", "штраф", "неустойк", "расторж"].any (strContains combined)
    then "CRITICAL"
  else if ["сумм", "рубл", "платеж", "срок"].any (strContains combined) then "MAJOR"
  else "MINOR"

/-- `DiffEngine._calculate_impact`: `none` models the uncaught `ValueError`
of `max()` on an empty sequence, which happens whenever the texts contain
digit runs but every digit run has 10 or more digits. -/
def calculate_impact (old new : String) : Option Nat :=
  let score := 20
  let numbers := findIntRuns (old ++ new)
  if numbers ≠ [] then
    let cands := numbers.filter (fun n => n.data.length < 10)
    match cands.map intOfToken with
    | [] => none
    | x :: xs =>
      let max_num := xs.foldl Nat.max x
      let score := if max_num > 10000 then score + 40
        else if max_num > 1000 then score + 25 else score
      some (Nat.min 100 score)
  else some (Nat.min 100 score)

/-- `DiffEngine._generate_summary` (`old`/`new` may be Python `None`). -/
def generate_summary (old new : Option String) (classification : String) : String :=
  let old_nums := findNumbers (old.getD "")
  let new_nums := findNumbers (new.getD "")
  let truthy : Option String → Bool := fun x => x.getD "" ≠ ""
  if classification = "NUMERICAL_CHANGE" ∧ old_nums ≠ [] ∧ new_nums ≠ [] then
    "Изменено: " ++ old_nums.headD "" ++ " → " ++ new_nums.headD ""
  else if truthy old ∧ ¬ truthy new then
    "Удалено: " ++ pyTake (old.getD "") 50 ++ "..."
  else if truthy new ∧ ¬ truthy old then
    "Добавлено: " ++ pyTake (new.getD "") 50 ++ "..."
  else "Изменён текст"

/-- `DiffEngine._generate_semantic_summary`. -/
def generate_semantic_summary (semantic_type : String) : String :=
  if semantic_type = "FINANCIAL" then "💰 Изменение финансовых условий"
  else if semantic_type = "TEMPORAL" then "📅 Изменение сроков или дат"
  else if semantic_type = "LEGAL" then "⚖️ Изменение правовых условий"
  else if semantic_type = "GENERAL" then "📝 Изменение текста"
  else "Изменение"

/-- The word-level inline diff output `{"left_html", "right_html"}`. -/
structure InlineDiff where
  left_html : String
  right_html : String
deriving DecidableEq, Repr

/-- `DiffEngine._escape`. -/
def pyEscape (s : String) : String :=
  ⟨s.data.flatMap fun c =>
    if c = '&' then "&amp;".data
    else if c = '<' then "&lt;".data
    else if c = '>' then "&gt;".data
    else if c = '"' then "&quot;".data
    else [c]⟩

/-- Word-char test for `\w` over the alphabets in scope (ASCII alphanumerics,
underscore, Cyrillic). -/
def isWordChar (c : Char) : Bool :=
  c.isAlphanum ∨ c = '_' ∨ (0x400 ≤ c.toNat ∧ c.toNat ≤ 0x4FF)

/-- `DiffEngine._tokenize`: `re.findall(r'\d+[.,]?\d*|\w+|[^\w\s]+|\s+', text)`
as a fuel-driven scanner. -/
def tokenizeAux : Nat → List Char → List String
  | 0, _ => []
  | _, [] => []
  | fuel + 1, c :: cs =>
    if c.isDigit then
      let p := numTokenHere (c :: cs)
      String.mk p.1 :: tokenizeAux fuel p.2
    else if isWordChar c then
      let p := List.span isWordChar (c :: cs)
      String.mk p.1 :: tokenizeAux fuel p.2
    else if ¬ pyIsSpace c then
      let p := List.span (fun x => ¬ isWordChar x ∧ ¬ pyIsSpace x) (c :: cs)
      String.mk p.1 :: tokenizeAux fuel p.2
    else
      let p := List.span pyIsSpace (c :: cs)
      String.mk p.1 :: tokenizeAux fuel p.2

/-- `DiffEngine._tokenize`. -/
def tokenize (s : String) : List String := tokenizeAux s.data.length s.data

/-- `DiffEngine._compute_inline_diff`. -/
def compute_inline_diff (old_line new_line : String) : InlineDiff :=
  let old_words := tokenize old_line
  let new_words := tokenize new_line
  (getOpcodes old_words new_words).foldl
    (fun (acc : InlineDiff) op =>
      let old_part := String.join (pySlice old_words op.i1 op.i2)
      let new_part := String.join (pySlice new_words op.j1 op.j2)
      match op.tag with
      | Tag.equal =>
        ⟨acc.left_html ++ pyEscape old_part, acc.right_html ++ pyEscape new_part⟩
      | Tag.replace =>
        ⟨acc.left_html ++ "<mark class=\"diff-del\">" ++ pyEscape old_part ++ "</mark>",
         acc.right_html ++ "<mark class=\"diff-add\">" ++ pyEscape new_part ++ "</mark>"⟩
      | Tag.delete =>
        ⟨acc.left_html ++ "<mark class=\"diff-del\">" ++ pyEscape old_part ++ "</mark>",
         acc.right_html⟩
      | Tag.insert =>
        ⟨acc.left_html,
         acc.right_html ++ "<mark class=\"diff-add\">" ++ pyEscape new_part ++ "</mark>"⟩)
    ⟨"", ""⟩

/-- `DiffEngine._make_change`.  The caller supplies the `uuid4().hex[:8]`
entropy as `idStr`; `none` models the `ValueError` escaping from
`_calculate_impact`. -/
def make_change (idStr : String) (change_type : String)
    (old_text new_text : Option String) (location : String)
    (inline_diff : Option InlineDiff) : Option Change :=
  (calculate_impact (old_text.getD "") (new_text.getD "")).map fun impact =>
    { id := idStr,
      type := change_type,
      classification := classify_change (old_text.getD "") (new_text.getD ""),
      severity := calculate_severity (old_text.getD "") (new_text.getD ""),
      location := location,
      original_text := old_text,
      new_text := new_text,
      ai_summary := generate_summary old_text new_text
        (classify_change (old_text.getD "") (new_text.getD "")),
      impact_score := impact,
      original_html := inline_diff.map InlineDiff.left_html,
      new_html := inline_diff.map InlineDiff.right_html,
      semantic_type := none,
      meaning_shift := none }

/-! ### Diff engine: line-by-line and semantic change construction -/

/-- The change id `f"change_{uuid.uuid4().hex[:8]}"`; the entropy source is
modelled as a supply of hex strings indexed by the number of changes created
so far in the current comparison. -/
def uid (u : Nat → String) (k : Nat) : String := "change_" ++ pyTake (u k) 8

/-- The guarded reads `lines1[i1+idx] if i1+idx < i2 else ""` used by the
replace branches. -/
def guardedLine (lines : List String) (base bound idx : Nat) : String :=
  if base + idx < bound then lines.getD (base + idx) "" else ""

/-- The inner `for idx in range(max(i2 - i1, j2 - j1))` loop of the `replace`
branch of `_line_by_line_diff`. -/
def lblReplaceLoop (u : Nat → String) (lines1 lines2 : List String)
    (i1 i2 j1 j2 : Nat) : List Nat → Nat → Option (List Change)
  | [], _ => some []
  | idx :: rest, k =>
    let old_line := guardedLine lines1 i1 i2 idx
    let new_line := guardedLine lines2 j1 j2 idx
    if old_line ≠ "" ∧ new_line ≠ "" then
      (make_change (uid u k) "MODIFIED" (some old_line) (some new_line)
          ("строка " ++ toString (i1 + idx + 1))
          (some (compute_inline_diff old_line new_line))).bind fun c =>
        (lblReplaceLoop u lines1 lines2 i1 i2 j1 j2 rest (k + 1)).map fun cs => c :: cs
    else if old_line ≠ "" then
      (make_change (uid u k) "DELETED" (some old_line) none
          ("строка " ++ toString (i1 + idx + 1)) none).bind fun c =>
        (lblReplaceLoop u lines1 lines2 i1 i2 j1 j2 rest (k + 1)).map fun cs => c :: cs
    else if new_line ≠ "" then
      (make_change (uid u k) "ADDED" none (some new_line)
          ("строка " ++ toString (j1 + idx + 1)) none).bind fun c =>
        (lblReplaceLoop u lines1 lines2 i1 i2 j1 j2 rest (k + 1)).map fun cs => c :: cs
    else lblReplaceLoop u lines1 lines2 i1 i2 j1 j2 rest k

/-- The `delete` branch loop of `_line_by_line_diff`. -/
def lblDeleteLoop (u : Nat → String) (lines1 : List String) :
    List Nat → Nat → Option (List Change)
  | [], _ => some []
  | idx :: rest, k =>
    if stripNonEmpty (lines1.getD idx "") then
      (make_change (uid u k) "DELETED" (some (lines1.getD idx "")) none
          ("строка " ++ toString (idx + 1)) none).bind fun c =>
        (lblDeleteLoop u lines1 rest (k + 1)).map fun cs => c :: cs
    else lblDeleteLoop u lines1 rest k

/-- The `insert` branch loop of `_line_by_line_diff`. -/
def lblInsertLoop (u : Nat → String) (lines2 : List String) :
    List Nat → Nat → Option (List Change)
  | [], _ => some []
  | idx :: rest, k =>
    if stripNonEmpty (lines2.getD idx "") then
      (make_change (uid u k) "ADDED" none (some (lines2.getD idx ""))
          ("строка " ++ toString (idx + 1)) none).bind fun c =>
        (lblInsertLoop u lines2 rest (k + 1)).map fun cs => c :: cs
    else lblInsertLoop u lines2 rest k

/-- Changes contributed by one opcode in `_line_by_line_diff`. -/
def lblOpChanges (u : Nat → String) (lines1 lines2 : List String) (op : Opcode)
    (k : Nat) : Option (List Change) :=
  match op.tag with
  | Tag.equal => some []
  | Tag.replace =>
    lblReplaceLoop u lines1 lines2 op.i1 op.i2 op.j1 op.j2
      (List.range (Nat.max (op.i2 - op.i1) (op.j2 - op.j1))) k
  | Tag.delete => lblDeleteLoop u lines1 (List.range' op.i1 (op.i2 - op.i1)) k
  | Tag.insert => lblInsertLoop u lines2 (List.range' op.j1 (op.j2 - op.j1)) k

/-- The opcode loop of `_line_by_line_diff`. -/
def lblBuild (u : Nat → String) (lines1 lines2 : List String) :
    List Opcode → Nat → Option (List Change)
  | [], _ => some []
  | op :: ops, k =>
    (lblOpChanges u lines1 lines2 op k).bind fun cs =>
      (lblBuild u lines1 lines2 ops (k + cs.length)).map fun rest => cs ++ rest

/-- The `raw_changes` triples collected by `_semantic_diff` for one opcode. -/
def semRawOp (lines1 lines2 : List String) (op : Opcode) : List (String × String × Nat) :=
  match op.tag with
  | Tag.equal => []
  | Tag.replace =>
    (List.range (Nat.max (op.i2 - op.i1) (op.j2 - op.j1))).filterMap fun idx =>
      let old_line := guardedLine lines1 op.i1 op.i2 idx
      let new_line := guardedLine lines2 op.j1 op.j2 idx
      if old_line ≠ "" ∨ new_line ≠ "" then some (old_line, new_line, op.i1 + idx)
      else none
  | Tag.delete =>
    (List.range' op.i1 (op.i2 - op.i1)).map fun idx => (lines1.getD idx "", "", idx)
  | Tag.insert =>
    (List.range' op.j1 (op.j2 - op.j1)).map fun idx => ("", lines2.getD idx "", idx)

/-- The per-change semantic decoration of `_semantic_diff`: semantic type,
meaning shift, summary, and the severity boost on a detected shift. -/
def semUpdate (old new : String) (c0 : Change) : Change :=
  let stype := classify_semantic_change old new
  let shift := detect_meaning_shift old new
  let c1 := { c0 with semantic_type := some stype, meaning_shift := shift,
                      ai_summary := generate_semantic_summary stype }
  match shift with
  | some sh =>
    { c1 with severity :=
        if strContains (pyLower sh) "критич" then "CRITICAL" else "MAJOR" }
  | none => c1

/-- The semantic grouping loop of `_semantic_diff`. -/
def semLoop (u : Nat → String) : List (String × String × Nat) → Nat → Option (List Change)
  | [], _ => some []
  | (old, new, line_num) :: rest, k =>
    if ¬ stripNonEmpty old ∧ ¬ stripNonEmpty new then semLoop u rest k
    else
      let ctype := if old ≠ "" ∧ new ≠ "" then "MODIFIED"
        else if old ≠ "" then "DELETED" else "ADDED"
      (make_change (uid u k) ctype (if old = "" then none else some old)
          (if new = "" then none else some new)
          ("строка " ++ toString (line_num + 1)) none).bind fun c0 =>
        (semLoop u rest (k + 1)).map fun cs => semUpdate old new c0 :: cs

/-! ### Diff engine: side-by-side alignment -/

/-- Actions stored in the `parent` table of `_find_line_matches`. -/
inductive PAct where
  | skip1 | skip2 | matched
deriving DecidableEq, Repr

/-- A `(dp, parent)` cell of the alignment table. -/
abbrev DLCell := Rat × Option (Nat × Nat × PAct)

/-- The similarity matrix entry `sim_matrix[i][j]` of `_find_line_matches`. -/
def simEntry (lines1 lines2 : List String) (i j : Nat) : Rat :=
  let l1 := lines1.getD i ""
  let l2 := lines2.getD j ""
  if l1 = l2 then mkRat 2 1
  else if stripNonEmpty l1 ∧ stripNonEmpty l2 then
    let sim := smRatio l1.data l2.data
    if sim ≥ mkRat 7 10 then sim else 0
  else if ¬ stripNonEmpty l1 ∧ ¬ stripNonEmpty l2 then mkRat 3 2
  else 0

/-- One cell `dp[i][j]`, `parent[i][j]` of the alignment DP: the three options
are tried in the source's order, each taken only on a strict improvement. -/
def mkCell (diag left up sim : Rat) (i j : Nat) : DLCell :=
  let b1 : DLCell :=
    if qSub up (mkRat 1 100) > 0 then (qSub up (mkRat 1 100), some (i - 1, j, PAct.skip1))
    else (0, none)
  let b2 : DLCell :=
    if qSub left (mkRat 1 100) > b1.1 then
      (qSub left (mkRat 1 100), some (i, j - 1, PAct.skip2))
    else b1
  if sim > 0 ∧ qAdd diag sim > b2.1 then (qAdd diag sim, some (i - 1, j - 1, PAct.matched))
  else b2

/-- Cells `j, j+1, …` of the row for `a`-index `i`, carrying the left cell
value (structural in the remaining count). -/
def dlRowCells (sim : Nat → Nat → Rat) (prev : List DLCell) (i : Nat) :
    Nat → Nat → Rat → List DLCell
  | 0, _, _ => []
  | k + 1, j, left =>
    let c := mkCell ((prev.getD (j - 1) (0, none)).1) left ((prev.getD j (0, none)).1)
      (sim (i - 1) (j - 1)) i j
    c :: dlRowCells sim prev i k (j + 1) c.1

/-- Row `i ≥ 1` of the alignment table (`dp[i][0] = 0`, no parent). -/
def dlRow (sim : Nat → Nat → Rat) (prev : List DLCell) (i n2 : Nat) : List DLCell :=
  (0, none) :: dlRowCells sim prev i n2 1 0

/-- Rows `i, i+1, …` of the alignment table. -/
def dlTableAux (sim : Nat → Nat → Rat) (n2 : Nat) : Nat → Nat → List DLCell → List (List DLCell)
  | 0, _, _ => []
  | k + 1, i, prev =>
    let row := dlRow sim prev i n2
    row :: dlTableAux sim n2 k (i + 1) row

/-- The full `(n1+1) × (n2+1)` alignment table of `_find_line_matches`. -/
def dlTable (sim : Nat → Nat → Rat) (n1 n2 : Nat) : List (List DLCell) :=
  let row0 : List DLCell := List.replicate (n2 + 1) (0, none)
  row0 :: dlTableAux sim n2 n1 1 row0

/-- `parent[i][j]` lookup. -/
def parentAt (table : List (List DLCell)) (i j : Nat) : Option (Nat × Nat × PAct) :=
  ((table.getD i []).getD j (0, none)).2

/-- The backtracking loop of `_find_line_matches` (matches are produced
latest-first, as in the source, and reversed by the caller). -/
def backtrackAux (parent : Nat → Nat → Option (Nat × Nat × PAct)) :
    Nat → Nat → Nat → List (Nat × Nat)
  | 0, _, _ => []
  | fuel + 1, i, j =>
    if i = 0 ∨ j = 0 then []
    else
      match parent i j with
      | none => []
      | some (pi, pj, act) =>
        if act = PAct.matched then (i - 1, j - 1) :: backtrackAux parent fuel pi pj
        else backtrackAux parent fuel pi pj

/-- `DiffEngine._find_line_matches`. -/
def find_line_matches (lines1 lines2 : List String) : List (Nat × Nat) :=
  let n1 := lines1.length
  let n2 := lines2.length
  if n1 = 0 ∨ n2 = 0 then []
  else
    (backtrackAux (parentAt (dlTable (simEntry lines1 lines2) n1 n2))
      (n1 + n2 + 1) n1 n2).reverse

/-- One row of the side-by-side view. -/
structure SideRow where
  num : Option Nat
  type : String
  text : String
  html : String
deriving DecidableEq, Repr

/-- The two columns of the side-by-side view. -/
structure DiffLines where
  left : List SideRow
  right : List SideRow
deriving DecidableEq, Repr

/-- A `deleted` row. -/
def delRow (n : Nat) (text : String) : SideRow :=
  ⟨some n, "deleted", text, "<mark class=\"diff-del\">" ++ pyEscape text ++ "</mark>"⟩

/-- An `added` row. -/
def addRow (n : Nat) (text : String) : SideRow :=
  ⟨some n, "added", text, "<mark class=\"diff-add\">" ++ pyEscape text ++ "</mark>"⟩

/-- An `empty` placeholder row. -/
def emptyRow : SideRow := ⟨none, "empty", "", ""⟩

/-- The alignment walk of `_build_side_by_side` over the matches. -/
def sbsLoop (lines1 lines2 : List String) (show_full : Bool) :
    List (Nat × Nat) → Nat → Nat → Nat → Nat → List SideRow × List SideRow
  | [], i, j, ln, rn =>
    let lcount := lines1.length - i
    let rcount := lines2.length - j
    ((List.range lcount).map (fun o => delRow (ln + o) (lines1.getD (i + o) "")) ++
       (List.range rcount).map (fun _ => emptyRow),
     (List.range lcount).map (fun _ => emptyRow) ++
       (List.range rcount).map (fun o => addRow (rn + o) (lines2.getD (j + o) "")))
  | (mi, mj) :: rest, i, j, ln, rn =>
    let dcount := mi - i
    let acount := mj - j
    let leftDel := (List.range dcount).map fun o => delRow (ln + o) (lines1.getD (i + o) "")
    let rightAdd := (List.range acount).map fun o => addRow (rn + o) (lines2.getD (j + o) "")
    let ln1 := ln + dcount
    let rn1 := rn + acount
    let line1 := lines1.getD mi ""
    let line2 := lines2.getD mj ""
    let pair : List SideRow × List SideRow × Nat × Nat :=
      if line1 = line2 then
        if show_full then
          ([⟨some ln1, "unchanged", line1, pyEscape line1⟩],
           [⟨some rn1, "unchanged", line2, pyEscape line2⟩], ln1 + 1, rn1 + 1)
        else ([], [], ln1, rn1)
      else
        let inline := compute_inline_diff line1 line2
        ([⟨some ln1, "modified", line1, inline.left_html⟩],
         [⟨some rn1, "modified", line2, inline.right_html⟩], ln1 + 1, rn1 + 1)
    let tail := sbsLoop lines1 lines2 show_full rest (mi + 1) (mj + 1) pair.2.2.1 pair.2.2.2
    (leftDel ++ (List.range acount).map (fun _ => emptyRow) ++ pair.1 ++ tail.1,
     (List.range dcount).map (fun _ => emptyRow) ++ rightAdd ++ pair.2.1 ++ tail.2)

/-- `DiffEngine._build_side_by_side` (the debug `print` calls of the source
have no effect on the returned data and are not modelled). -/
def build_side_by_side (lines1 lines2 : List String) (show_full : Bool) : DiffLines :=
  let p := sbsLoop lines1 lines2 show_full (find_line_matches lines1 lines2) 0 0 1 1
  ⟨p.1, p.2⟩

/-! ### Diff engine: results and `compare` -/

/-- The `summary` block of `_build_result`. -/
structure Summary where
  total_changes : Nat
  critical_changes : Nat
  major_changes : Nat
  minor_changes : Nat
  similarity_score : Rat
deriving DecidableEq, Repr

/-- The `mode_info` block. -/
structure ModeInfo where
  name : String
  description : String
deriving DecidableEq, Repr

/-- A `ComparisonResult` as returned by `DiffEngine.compare`
(`financial_impact` is always the empty list in the two reachable modes). -/
structure CompResult where
  summary : Summary
  changes : List Change
  diff_lines : DiffLines
  mode_info : ModeInfo
deriving DecidableEq, Repr

/-- `DiffEngine._build_result` (summary part). -/
def buildSummary (changes : List Change) (text1 text2 : String) : Summary :=
  { total_changes := changes.length,
    critical_changes := changes.countP (fun c => c.severity = "CRITICAL"),
    major_changes := changes.countP (fun c => c.severity = "MAJOR"),
    minor_changes := changes.countP (fun c => c.severity = "MINOR"),
    similarity_score := pyRound3 (smRatio text1.data text2.data) }

/-- `DiffEngine._line_by_line_diff`. -/
def line_by_line_diff (u : Nat → String) (text1 text2 : String) (show_full : Bool) :
    Option CompResult :=
  let lines1 := pySplitlines text1
  let lines2 := pySplitlines text2
  (lblBuild u lines1 lines2 (getOpcodes lines1 lines2) 0).map fun changes =>
    { summary := buildSummary changes text1 text2,
      changes := changes,
      diff_lines := build_side_by_side lines1 lines2 show_full,
      mode_info := ⟨"Построчный", "Классический diff — сравнение строка за строкой"⟩ }

/-- `DiffEngine._semantic_diff`. -/
def semantic_diff (u : Nat → String) (text1 text2 : String) (show_full : Bool) :
    Option CompResult :=
  let lines1 := pySplitlines text1
  let lines2 := pySplitlines text2
  let raw := (getOpcodes lines1 lines2).flatMap (semRawOp lines1 lines2)
  (semLoop u raw 0).map fun changes =>
    { summary := buildSummary changes text1 text2,
      changes := changes,
      diff_lines := build_side_by_side lines1 lines2 show_full,
      mode_info := ⟨"Семантический", "Анализ смысловых изменений — выявляет изменения значения"⟩ }

/-- `DiffEngine.compare`: dispatches to line-by-line or semantic mode (all
other mode strings fall back to line-by-line). -/
def compare (u : Nat → String) (text1 text2 mode : String) (show_full : Bool) :
    Option CompResult :=
  if mode = "line-by-line" then line_by_line_diff u text1 text2 show_full
  else if mode = "semantic" then semantic_diff u text1 text2 show_full
  else line_by_line_diff u text1 text2 show_full

/-! ### Concrete inputs used by the claim theorems -/

/-- First document of the AUTO-insert index-collision scenario. -/
def collisionDocA : Document := ⟨"1", "common\naaaaaaaaaaaa", "DocA"⟩

/-- Second document of the AUTO-insert index-collision scenario: it inserts a
significant block before `common` and rewrites the second line beyond the
auto-resolve similarity threshold. -/
def collisionDocB : Document :=
  ⟨"2", "longinsertedcontentxyz\ncommon\nzzzzzzzzzzzz", "DocB"⟩

/-- The merge of the collision scenario under the auto-resolving default
strategy. -/
def collisionMerge : MergeResult := merge [collisionDocA, collisionDocB] "CONSENSUS" none

/-- C1: the claimed placeholder invariant fails on the code.  In the AUTO
insert branch `_two_way_merge` records a resolved INSERT conflict under the
current `conflict_idx` without incrementing the counter, so the next
unresolved conflict reuses the same index and its placeholder
`<<<CONFLICT_0>>>` is simultaneously the token of a conflict whose
`consensus_variant` is non-null, which the claim forbids. -/
theorem collisionMerge_token_of_resolved_conflict_present :
    collisionMerge.conflicts.map (fun c => (c.index, c.type, c.consensus_variant)) =
      [(0, "INSERT", some 1), (0, "REPLACE", none)] ∧
    collisionMerge.merged_content = "longinsertedcontentxyz\ncommon\n<<<CONFLICT_0>>>" ∧
    strContains collisionMerge.merged_content (conflictToken 0) = true ∧
    (collisionMerge.conflicts.map Conflict.consensus_variant).contains (some 1) = true := by
  decide

/-- C2: conflict indices are claimed unique and sequential, but the AUTO
insert branch of `_two_way_merge` does not advance `conflict_idx`, so the
resolved INSERT conflict and the following unresolved REPLACE conflict both
carry index 0. -/
theorem collisionMerge_duplicate_conflict_indices :
    collisionMerge.conflicts.map Conflict.index = [0, 0] ∧
    ¬ (collisionMerge.conflicts.map Conflict.index).Nodup := by
  decide

/-- C4: `compare` is claimed total on well-formed strings, but
`_calculate_impact` evaluates `max()` over an empty generator whenever the
changed text contains digit runs and every digit run has 10 or more digits,
raising `ValueError`; both reachable modes crash on such input. -/
theorem compare_crashes_on_ten_digit_number :
    calculate_impact "1234567890" "" = none ∧
    compare (fun _ => "00000000") "1234567890" "" "line-by-line" true = none ∧
    compare (fun _ => "00000000") "1234567890" "" "semantic" true = none := by
  decide

/-- The conflict list used by the invalid-resolution scenarios. -/
def twoVariantConflicts : List Conflict :=
  [⟨0, "lines 1-1", "REPLACE", [⟨"d1", "AAA", 1⟩, ⟨"d2", "BBB", 1⟩], none, none, none⟩]

/-- C6: an out-of-range `chosen_variant_index` is claimed to leave the content
unchanged, but the guard `chosen_variant < len(variants)` misses negative
indices: `-1` passes the guard and Python negative indexing substitutes the
last variant (the token is consumed), while `-3` passes the guard and raises
`IndexError`.  A large positive index is the only case actually treated as a
no-op. -/
theorem apply_resolutions_negative_index_not_noop :
    apply_resolutions "x <<<CONFLICT_0>>> y" twoVariantConflicts [⟨0, -1⟩] =
      some "x BBB y" ∧
    apply_resolutions "x <<<CONFLICT_0>>> y" twoVariantConflicts [⟨0, -3⟩] = none ∧
    apply_resolutions "x <<<CONFLICT_0>>> y" twoVariantConflicts [⟨0, 5⟩] =
      some "x <<<CONFLICT_0>>> y" := by
  decide

/-- The three-way merge in which both derived documents delete base line 2
(`bbb`) — the identical edit to the same base line. -/
def identicalDeleteMerge : MergeResult :=
  merge [⟨"b", "aaa\nbbb", "Base"⟩, ⟨"1", "aaa", "V1"⟩, ⟨"2", "aaa", "V2"⟩]
    "CONSENSUS" (some "b")

/-- C7: in the identical-delete merge no conflict is produced, as claimed,
but the shared edit is not applied: the identical-change branch of
`_three_way_merge` appends the delete's empty `content` string, leaving a
spurious empty line, so the merge yields `"aaa\n"` instead of `"aaa"`. -/
theorem three_way_identical_delete_leaves_empty_line :
    identicalDeleteMerge.conflicts = [] ∧ identicalDeleteMerge.auto_resolved = 1 ∧
    identicalDeleteMerge.merged_content = "aaa\n" ∧
    identicalDeleteMerge.merged_content ≠ "aaa" := by
  decide

/-- The two documents of concrete scenario A. -/
def scenarioADoc1 : Document := ⟨"1", "Оплата в течение 30 дней", "V1"⟩

/-- The second document of concrete scenario A. -/
def scenarioADoc2 : Document := ⟨"2", "Оплата в течение 45 дней", "V2"⟩

/-- Scenario A merged under the auto-resolving default strategy. -/
def scenarioAMergeAuto : MergeResult := merge [scenarioADoc1, scenarioADoc2] "CONSENSUS" none

/-- Scenario A merged under the MANUAL strategy. -/
def scenarioAMergeManual : MergeResult := merge [scenarioADoc1, scenarioADoc2] "MANUAL" none

/-- C8 counterexample: under the auto-resolving strategy the claimed REPLACE
conflict does not exist — the lowercased similarity is 11/12 ≈ 0.917 > 0.85,
so `_two_way_merge` auto-resolves to the second document's line and returns
zero conflicts. -/
theorem scenarioA_auto_resolves_under_auto_strategy :
    calculate_similarity scenarioADoc1.content scenarioADoc2.content = mkRat 11 12 ∧
    scenarioAMergeAuto.conflicts = [] ∧ scenarioAMergeAuto.auto_resolved = 1 ∧
    scenarioAMergeAuto.merged_content = "Оплата в течение 45 дней" := by
  decide

/-- C8 amended: under MANUAL (where auto-resolution is disabled) the merge of
scenario A produces exactly one REPLACE conflict with null
`consensus_variant`, analysis type `numerical`, `old_numbers = ["30"]` and
`new_numbers = ["45"]`, and stored similarity `round(11/12, 2) = 0.92`. -/
theorem scenarioA_manual_single_numerical_conflict :
    scenarioAMergeManual.conflicts =
      [⟨0, "lines 1-1", "REPLACE",
        [⟨"V1", "Оплата в течение 30 дней", 1⟩,
         ⟨"V2", "Оплата в течение 45 дней", 1⟩],
        some (mkRat 23 25), none,
        some ⟨"numerical", some "high", some ["30"], some ["45"]⟩⟩] ∧
    scenarioAMergeManual.merged_content = "<<<CONFLICT_0>>>" := by
  decide

/-! ### Lemmas about `splitOnFuel` / `pyReplace` -/

/-- Unfolding of `subOf` on a cons cell. -/
theorem subOf_cons (c : Char) (cs t : List Char) :
    subOf (c :: cs) t = (t.isPrefixOf (c :: cs) || subOf cs t) := by
  simp [subOf]

/-- If the separator occurs nowhere in `s`, the splitter returns the single
part `acc.reverse ++ s` (for any fuel). -/
theorem splitOnFuel_not_sub (t : List Char) :
    ∀ (fuel : Nat) (s acc : List Char), subOf s t = false →
      splitOnFuel t fuel s acc = [acc.reverse ++ s]
  | 0, s, acc, _ => rfl
  | fuel + 1, [], acc, _ => by simp [splitOnFuel]
  | fuel + 1, c :: cs, acc, hs => by
    have hcs : subOf cs t = false := by
      rw [subOf_cons] at hs
      exact (Bool.or_eq_false_iff.mp hs).2
    have hpre : ¬ (t.isPrefixOf (c :: cs) ∧ t ≠ []) := by
      intro hb
      rw [subOf_cons, hb.1] at hs
      exact Bool.noConfusion hs
    rw [splitOnFuel, if_neg hpre, splitOnFuel_not_sub t fuel cs (c :: acc) hcs]
    simp

/-- Python `s.replace(t, r)` is the identity when `t` does not occur in `s`. -/
theorem pyReplace_of_not_contains (s t r : String) (h : strContains s t = false) :
    pyReplace s t r = s := by
  unfold pyReplace splitOnL
  rw [splitOnFuel_not_sub t.data s.data.length s.data [] h]
  simp [List.intercalate]

/-- The splitter never returns an empty part list. -/
theorem splitOnFuel_ne_nil (t : List Char) :
    ∀ (fuel : Nat) (s acc : List Char), splitOnFuel t fuel s acc ≠ []
  | 0, s, acc => by simp [splitOnFuel]
  | fuel + 1, [], acc => by simp [splitOnFuel]
  | fuel + 1, c :: cs, acc => by
    rw [splitOnFuel]
    by_cases hb : t.isPrefixOf (c :: cs) ∧ t ≠ []
    · rw [if_pos hb]; simp
    · rw [if_neg hb]; exact splitOnFuel_ne_nil t fuel cs (c :: acc)

/-- `intercalate` over a cons with a nonempty tail. -/
theorem intercalate_cons_ne_nil (t a : List Char) (l : List (List Char)) (h : l ≠ []) :
    List.intercalate t (a :: l) = a ++ t ++ List.intercalate t l := by
  cases l with
  | nil => exact absurd rfl h
  | cons b bs => simp [List.intercalate, List.intersperse]

/-- Joining the parts back with the separator recovers the input: the split
really is a decomposition of `s` along occurrences of `t`. -/
theorem intercalate_splitOnFuel (t : List Char) :
    ∀ (fuel : Nat) (s acc : List Char),
      List.intercalate t (splitOnFuel t fuel s acc) = acc.reverse ++ s
  | 0, s, acc => by simp [splitOnFuel, List.intercalate]
  | fuel + 1, [], acc => by simp [splitOnFuel, List.intercalate]
  | fuel + 1, c :: cs, acc => by
    rw [splitOnFuel]
    by_cases hb : t.isPrefixOf (c :: cs) ∧ t ≠ []
    · rw [if_pos hb]
      rw [intercalate_cons_ne_nil t _ _ (splitOnFuel_ne_nil t fuel _ [])]
      rw [intercalate_splitOnFuel t fuel ((c :: cs).drop t.length) []]
      obtain ⟨u, hu⟩ := List.isPrefixOf_iff_prefix.mp hb.1
      rw [← hu]
      simp [List.drop_left]
    · rw [if_neg hb, intercalate_splitOnFuel t fuel cs (c :: acc)]
      simp

/-! ### C5: idempotence of `apply_resolutions` -/

/-- C5 amended: applying a single resolution a second time is a no-op
provided the conflict token is gone from the once-applied content (in
particular whenever the chosen replacement does not itself reintroduce the
token).  The unqualified claim fails, see the counterexample below. -/
theorem apply_resolutions_idempotent_when_token_gone
    (content : String) (conflicts : List Conflict) (r : Resolution) (out : String)
    (h1 : apply_resolutions content conflicts [r] = some out)
    (h2 : strContains out (conflictToken r.conflict_index) = false) :
    apply_resolutions out conflicts [r] = some out := by
  unfold apply_resolutions applyResolutionsLoop at h1 ⊢
  cases hf : conflicts.find? (fun c => Int.ofNat c.index = r.conflict_index) with
  | none =>
    rw [show applyOneResolution conflicts r out = some out by
      simp only [applyOneResolution, hf]]
    rfl
  | some c =>
    by_cases hlt : r.chosen_variant_index < Int.ofNat c.variants.length
    · cases hv : pyGetList c.variants r.chosen_variant_index with
      | none =>
        rw [show applyOneResolution conflicts r content = none by
          simp only [applyOneResolution, hf]; rw [if_pos hlt]; simp only [hv]] at h1
        exact Option.noConfusion h1
      | some v =>
        rw [show applyOneResolution conflicts r out = some out by
          simp only [applyOneResolution, hf]
          rw [if_pos hlt]
          simp only [hv, pyReplace_of_not_contains out _ _ h2]]
        rfl
    · rw [show applyOneResolution conflicts r out = some out by
        simp only [applyOneResolution, hf]; rw [if_neg hlt]]
      rfl

/-- The conflict list of the C5 counterexample: the second variant's content
contains the conflict token itself. -/
def tokenVariantConflicts : List Conflict :=
  [⟨0, "lines 1-1", "REPLACE",
    [⟨"d1", "AAA", 1⟩, ⟨"d2", "a<<<CONFLICT_0>>>b", 1⟩], none, none, none⟩]

/-- C5 counterexample: for a valid resolution (existing conflict 0, in-range
variant 1) whose chosen variant reintroduces the token, applying the same
resolution twice is not the same as applying it once, refuting the claim as
stated. -/
theorem apply_resolutions_second_application_changes_content :
    apply_resolutions "<<<CONFLICT_0>>>" tokenVariantConflicts [⟨0, 1⟩] =
      some "a<<<CONFLICT_0>>>b" ∧
    apply_resolutions "a<<<CONFLICT_0>>>b" tokenVariantConflicts [⟨0, 1⟩] =
      some "aa<<<CONFLICT_0>>>bb" ∧
    ("aa<<<CONFLICT_0>>>bb" : String) ≠ "a<<<CONFLICT_0>>>b" := by
  decide

/-- C5 witness: a concrete valid resolution where the once-applied content has
dropped the token, so the amended idempotence theorem applies. -/
theorem apply_resolutions_idempotent_witness :
    apply_resolutions "q <<<CONFLICT_0>>> w" twoVariantConflicts [⟨0, 0⟩] =
      some "q AAA w" ∧
    strContains "q AAA w" (conflictToken (0 : Int)) = false ∧
    apply_resolutions "q AAA w" twoVariantConflicts [⟨0, 0⟩] = some "q AAA w" :=
  ⟨by decide, by decide,
    apply_resolutions_idempotent_when_token_gone "q <<<CONFLICT_0>>> w"
      twoVariantConflicts ⟨0, 0⟩ "q AAA w" (by decide) (by decide)⟩

/-! ### C10: frame property of `apply_resolutions` -/

/-- One effective resolution step: some listed resolution selects an existing
conflict and an in-range variant, and the content is rewritten by decomposing
it along the occurrences of that conflict's token and splicing the chosen
replacement into the gaps — every character outside the token occurrences is
preserved in order. -/
def resolveStep (conflicts : List Conflict) (resolutions : List Resolution)
    (s s' : String) : Prop :=
  ∃ r ∈ resolutions, ∃ c v,
    conflicts.find? (fun c0 => Int.ofNat c0.index = r.conflict_index) = some c ∧
    r.chosen_variant_index < Int.ofNat c.variants.length ∧
    pyGetList c.variants r.chosen_variant_index = some v ∧
    ∃ parts : List (List Char), parts ≠ [] ∧
      s.data = List.intercalate (conflictToken r.conflict_index).data parts ∧
      s'.data = List.intercalate (resolutionReplacement v).data parts

/-- Auxiliary induction for the frame theorem, over the resolution list the
loop still has to process. -/
theorem applyResolutionsLoop_frame (conflicts : List Conflict) :
    ∀ (rs : List Resolution) (s out : String),
      applyResolutionsLoop conflicts rs s = some out →
      Relation.ReflTransGen (resolveStep conflicts rs) s out ∧
      ((∀ r ∈ rs, strContains s (conflictToken r.conflict_index) = false) → out = s)
  | [], s, out, h => by
    simp only [applyResolutionsLoop] at h
    obtain rfl := Option.some.inj h
    exact ⟨Relation.ReflTransGen.refl, fun _ => rfl⟩
  | r :: rs, s, out, h => by
    have mono : ∀ a b, resolveStep conflicts rs a b → resolveStep conflicts (r :: rs) a b := by
      intro a b hab
      obtain ⟨r0, hr0, rest⟩ := hab
      exact ⟨r0, List.mem_cons_of_mem r hr0, rest⟩
    simp only [applyResolutionsLoop] at h
    cases hf : conflicts.find? (fun c0 => Int.ofNat c0.index = r.conflict_index) with
    | none =>
      rw [show applyOneResolution conflicts r s = some s by
        simp only [applyOneResolution, hf]] at h
      replace h : applyResolutionsLoop conflicts rs s = some out := h
      obtain ⟨htr, hid⟩ := applyResolutionsLoop_frame conflicts rs s out h
      exact ⟨htr.mono mono,
        fun hall => hid fun r0 hr0 => hall r0 (List.mem_cons_of_mem r hr0)⟩
    | some c =>
      by_cases hlt : r.chosen_variant_index < Int.ofNat c.variants.length
      · cases hv : pyGetList c.variants r.chosen_variant_index with
        | none =>
          rw [show applyOneResolution conflicts r s = none by
            simp only [applyOneResolution, hf]; rw [if_pos hlt]; simp only [hv]] at h
          exact Option.noConfusion h
        | some v =>
          rw [show applyOneResolution conflicts r s =
              some (pyReplace s (conflictToken r.conflict_index)
                (resolutionReplacement v)) by
            simp only [applyOneResolution, hf]; rw [if_pos hlt]; simp only [hv]] at h
          replace h : applyResolutionsLoop conflicts rs
              (pyReplace s (conflictToken r.conflict_index) (resolutionReplacement v)) =
              some out := h
          set s1 := pyReplace s (conflictToken r.conflict_index) (resolutionReplacement v)
            with hs1
          obtain ⟨htr, hid⟩ := applyResolutionsLoop_frame conflicts rs s1 out h
          constructor
          · refine Relation.ReflTransGen.head ?_ (htr.mono mono)
            refine ⟨r, List.mem_cons_self r rs, c, v, hf, hlt, hv,
              splitOnL s.data (conflictToken r.conflict_index).data,
              splitOnFuel_ne_nil _ _ _ _, ?_, ?_⟩
            · have := intercalate_splitOnFuel (conflictToken r.conflict_index).data
                s.data.length s.data []
              simpa [splitOnL] using this.symm
            · rfl
          · intro hall
            have htok : strContains s (conflictToken r.conflict_index) = false :=
              hall r (List.mem_cons_self r rs)
            have hss1 : s1 = s := by
              rw [hs1, pyReplace_of_not_contains s _ _ htok]
            rw [hss1] at hid
            exact hid fun r0 hr0 => hall r0 (List.mem_cons_of_mem r hr0)
      · rw [show applyOneResolution conflicts r s = some s by
          simp only [applyOneResolution, hf]; rw [if_neg hlt]] at h
        replace h : applyResolutionsLoop conflicts rs s = some out := h
        obtain ⟨htr, hid⟩ := applyResolutionsLoop_frame conflicts rs s out h
        exact ⟨htr.mono mono,
          fun hall => hid fun r0 hr0 => hall r0 (List.mem_cons_of_mem r hr0)⟩

/-- C10: when `apply_resolutions` returns, the result is reachable from the
input by steps that only replace occurrences of `<<<CONFLICT_k>>>` tokens of
resolved conflict indices (each step an intercalate decomposition preserving
all other characters in order); and if no such token occurs in the input, the
result is exactly the input. -/
theorem apply_resolutions_only_replaces_tokens
    (content : String) (conflicts : List Conflict) (resolutions : List Resolution)
    (out : String)
    (h : apply_resolutions content conflicts resolutions = some out) :
    Relation.ReflTransGen (resolveStep conflicts resolutions) content out ∧
    ((∀ r ∈ resolutions, strContains content (conflictToken r.conflict_index) = false) →
      out = content) :=
  applyResolutionsLoop_frame conflicts resolutions content out h

/-- C10 witness: a concrete resolved merge where the frame theorem applies
(token present: one step; token absent for the no-op conjunct). -/
theorem apply_resolutions_only_replaces_tokens_witness :
    apply_resolutions "plain text" twoVariantConflicts [⟨0, 0⟩] = some "plain text" ∧
    (Relation.ReflTransGen (resolveStep twoVariantConflicts [⟨0, 0⟩])
       "plain text" "plain text" ∧
     ((∀ r ∈ [(⟨0, 0⟩ : Resolution)],
         strContains "plain text" (conflictToken r.conflict_index) = false) →
       "plain text" = "plain text")) :=
  ⟨by decide, apply_resolutions_only_replaces_tokens _ _ _ _ (by decide)⟩

/-! ### C3: determinism of compare and merge -/

/-- Erase the uuid-generated `id` field of a change. -/
def eraseId (c : Change) : Change := { c with id := "" }

/-- Erase every change id of a comparison result. -/
def eraseIds (r : CompResult) : CompResult := { r with changes := r.changes.map eraseId }

/-- `_make_change` depends on its entropy argument only through the `id`
field. -/
theorem make_change_eraseId (id1 id2 : String) (t : String) (o n : Option String)
    (loc : String) (inl : Option InlineDiff) :
    (make_change id1 t o n loc inl).map eraseId =
      (make_change id2 t o n loc inl).map eraseId := by
  unfold make_change
  cases calculate_impact (o.getD "") (n.getD "") <;> rfl

/-- Congruence for the bind-cons shape shared by the change-building loops. -/
theorem bindCons_eraseId (m1 m2 : Option Change) (o1 o2 : Option (List Change))
    (hm : m1.map eraseId = m2.map eraseId)
    (ho : o1.map (List.map eraseId) = o2.map (List.map eraseId)) :
    (m1.bind fun c => o1.map fun cs => c :: cs).map (List.map eraseId) =
      (m2.bind fun c => o2.map fun cs => c :: cs).map (List.map eraseId) := by
  cases m1 <;> cases m2 <;> cases o1 <;> cases o2 <;> simp_all

/-- Congruence for the bind-cons shape with a post-update of the change. -/
theorem bindConsUpd_eraseId (upd : Change → Change)
    (hupd : ∀ c1 c2, eraseId c1 = eraseId c2 → eraseId (upd c1) = eraseId (upd c2))
    (m1 m2 : Option Change) (o1 o2 : Option (List Change))
    (hm : m1.map eraseId = m2.map eraseId)
    (ho : o1.map (List.map eraseId) = o2.map (List.map eraseId)) :
    (m1.bind fun c => o1.map fun cs => upd c :: cs).map (List.map eraseId) =
      (m2.bind fun c => o2.map fun cs => upd c :: cs).map (List.map eraseId) := by
  cases m1 <;> cases m2 <;> cases o1 <;> cases o2 <;> simp_all
  exact hupd _ _ (by simp_all)

/-- The replace-branch loop is deterministic up to change ids. -/
theorem lblReplaceLoop_eraseId (u1 u2 : Nat → String) (lines1 lines2 : List String)
    (i1 i2 j1 j2 : Nat) :
    ∀ (idxs : List Nat) (k1 k2 : Nat),
      (lblReplaceLoop u1 lines1 lines2 i1 i2 j1 j2 idxs k1).map (List.map eraseId) =
        (lblReplaceLoop u2 lines1 lines2 i1 i2 j1 j2 idxs k2).map (List.map eraseId)
  | [], _, _ => rfl
  | idx :: rest, k1, k2 => by
    simp only [lblReplaceLoop]
    split
    · exact bindCons_eraseId _ _ _ _ (make_change_eraseId _ _ _ _ _ _ _)
        (lblReplaceLoop_eraseId u1 u2 lines1 lines2 i1 i2 j1 j2 rest (k1 + 1) (k2 + 1))
    · split
      · exact bindCons_eraseId _ _ _ _ (make_change_eraseId _ _ _ _ _ _ _)
          (lblReplaceLoop_eraseId u1 u2 lines1 lines2 i1 i2 j1 j2 rest (k1 + 1) (k2 + 1))
      · split
        · exact bindCons_eraseId _ _ _ _ (make_change_eraseId _ _ _ _ _ _ _)
            (lblReplaceLoop_eraseId u1 u2 lines1 lines2 i1 i2 j1 j2 rest (k1 + 1) (k2 + 1))
        · exact lblReplaceLoop_eraseId u1 u2 lines1 lines2 i1 i2 j1 j2 rest k1 k2

/-- The delete-branch loop is deterministic up to change ids. -/
theorem lblDeleteLoop_eraseId (u1 u2 : Nat → String) (lines1 : List String) :
    ∀ (idxs : List Nat) (k1 k2 : Nat),
      (lblDeleteLoop u1 lines1 idxs k1).map (List.map eraseId) =
        (lblDeleteLoop u2 lines1 idxs k2).map (List.map eraseId)
  | [], _, _ => rfl
  | idx :: rest, k1, k2 => by
    simp only [lblDeleteLoop]
    split
    · exact bindCons_eraseId _ _ _ _ (make_change_eraseId _ _ _ _ _ _ _)
        (lblDeleteLoop_eraseId u1 u2 lines1 rest (k1 + 1) (k2 + 1))
    · exact lblDeleteLoop_eraseId u1 u2 lines1 rest k1 k2

/-- The insert-branch loop is deterministic up to change ids. -/
theorem lblInsertLoop_eraseId (u1 u2 : Nat → String) (lines2 : List String) :
    ∀ (idxs : List Nat) (k1 k2 : Nat),
      (lblInsertLoop u1 lines2 idxs k1).map (List.map eraseId) =
        (lblInsertLoop u2 lines2 idxs k2).map (List.map eraseId)
  | [], _, _ => rfl
  | idx :: rest, k1, k2 => by
    simp only [lblInsertLoop]
    split
    · exact bindCons_eraseId _ _ _ _ (make_change_eraseId _ _ _ _ _ _ _)
        (lblInsertLoop_eraseId u1 u2 lines2 rest (k1 + 1) (k2 + 1))
    · exact lblInsertLoop_eraseId u1 u2 lines2 rest k1 k2

/-- Per-opcode change construction is deterministic up to change ids. -/
theorem lblOpChanges_eraseId (u1 u2 : Nat → String) (lines1 lines2 : List String)
    (op : Opcode) (k1 k2 : Nat) :
    (lblOpChanges u1 lines1 lines2 op k1).map (List.map eraseId) =
      (lblOpChanges u2 lines1 lines2 op k2).map (List.map eraseId) := by
  unfold lblOpChanges
  cases op.tag with
  | equal => rfl
  | replace => exact lblReplaceLoop_eraseId u1 u2 lines1 lines2 _ _ _ _ _ k1 k2
  | delete => exact lblDeleteLoop_eraseId u1 u2 lines1 _ k1 k2
  | insert => exact lblInsertLoop_eraseId u1 u2 lines2 _ k1 k2

/-- The whole line-by-line change list is deterministic up to change ids. -/
theorem lblBuild_eraseId (u1 u2 : Nat → String) (lines1 lines2 : List String) :
    ∀ (ops : List Opcode) (k1 k2 : Nat),
      (lblBuild u1 lines1 lines2 ops k1).map (List.map eraseId) =
        (lblBuild u2 lines1 lines2 ops k2).map (List.map eraseId)
  | [], _, _ => rfl
  | op :: ops, k1, k2 => by
    simp only [lblBuild]
    have hop := lblOpChanges_eraseId u1 u2 lines1 lines2 op k1 k2
    cases ho1 : lblOpChanges u1 lines1 lines2 op k1 with
    | none =>
      cases ho2 : lblOpChanges u2 lines1 lines2 op k2 with
      | none => rfl
      | some cs2 => rw [ho1, ho2] at hop; simp_all
    | some cs1 =>
      cases ho2 : lblOpChanges u2 lines1 lines2 op k2 with
      | none => rw [ho1, ho2] at hop; simp_all
      | some cs2 =>
        rw [ho1, ho2] at hop
        simp only [Option.map_some', Option.some.injEq] at hop
        simp only [Option.some_bind]
        have hrest := lblBuild_eraseId u1 u2 lines1 lines2 ops
          (k1 + cs1.length) (k2 + cs2.length)
        cases hb1 : lblBuild u1 lines1 lines2 ops (k1 + cs1.length) with
        | none =>
          cases hb2 : lblBuild u2 lines1 lines2 ops (k2 + cs2.length) with
          | none => rfl
          | some r2 => rw [hb1, hb2] at hrest; simp_all
        | some r1 =>
          cases hb2 : lblBuild u2 lines1 lines2 ops (k2 + cs2.length) with
          | none => rw [hb1, hb2] at hrest; simp_all
          | some r2 =>
            rw [hb1, hb2] at hrest
            simp only [Option.map_some', Option.some.injEq] at hrest
            simp_all [List.map_append]

/-- The semantic decoration preserves id-erased equality. -/
theorem semUpdate_eraseId (old new : String) (c1 c2 : Change)
    (h : eraseId c1 = eraseId c2) :
    eraseId (semUpdate old new c1) = eraseId (semUpdate old new c2) := by
  unfold semUpdate
  cases detect_meaning_shift old new <;> cases c1 <;> cases c2 <;>
    simp_all [eraseId]

/-- The semantic loop is deterministic up to change ids. -/
theorem semLoop_eraseId (u1 u2 : Nat → String) :
    ∀ (raw : List (String × String × Nat)) (k1 k2 : Nat),
      (semLoop u1 raw k1).map (List.map eraseId) =
        (semLoop u2 raw k2).map (List.map eraseId)
  | [], _, _ => rfl
  | (old, new, line_num) :: rest, k1, k2 => by
    simp only [semLoop]
    split
    · exact semLoop_eraseId u1 u2 rest k1 k2
    · exact bindConsUpd_eraseId (semUpdate old new) (semUpdate_eraseId old new)
        _ _ _ _ (make_change_eraseId _ _ _ _ _ _ _)
        (semLoop_eraseId u1 u2 rest (k1 + 1) (k2 + 1))

/-- The severity of a change is untouched by erasing its id. -/
theorem severity_eraseId (c : Change) : (eraseId c).severity = c.severity := rfl

/-- `_build_result`'s summary block only reads id-independent fields. -/
theorem buildSummary_eraseId (cs1 cs2 : List Change) (t1 t2 : String)
    (h : cs1.map eraseId = cs2.map eraseId) :
    buildSummary cs1 t1 t2 = buildSummary cs2 t1 t2 := by
  have hsev : cs1.map (fun c => c.severity) = cs2.map (fun c => c.severity) := by
    have h1 : cs1.map (fun c => c.severity) =
        (cs1.map eraseId).map (fun c => c.severity) := by
      rw [List.map_map]; rfl
    have h2 : cs2.map (fun c => c.severity) =
        (cs2.map eraseId).map (fun c => c.severity) := by
      rw [List.map_map]; rfl
    rw [h1, h2, h]
  have hlen : cs1.length = cs2.length := by
    have := congrArg List.length h
    simpa using this
  have hc : ∀ S : String,
      cs1.countP (fun c => c.severity = S) = cs2.countP (fun c => c.severity = S) := by
    intro S
    rw [show (fun c : Change => decide (c.severity = S)) =
        ((fun s => decide (s = S)) ∘ (fun c : Change => c.severity)) from rfl]
    rw [← List.countP_map, ← List.countP_map, hsev]
  unfold buildSummary
  rw [hlen, hc "CRITICAL", hc "MAJOR", hc "MINOR"]

/-- `_line_by_line_diff` is deterministic up to change ids. -/
theorem line_by_line_diff_eraseIds (u1 u2 : Nat → String) (t1 t2 : String) (sf : Bool) :
    (line_by_line_diff u1 t1 t2 sf).map eraseIds =
      (line_by_line_diff u2 t1 t2 sf).map eraseIds := by
  simp only [line_by_line_diff]
  have hb := lblBuild_eraseId u1 u2 (pySplitlines t1) (pySplitlines t2)
    (getOpcodes (pySplitlines t1) (pySplitlines t2)) 0 0
  cases hb1 : lblBuild u1 (pySplitlines t1) (pySplitlines t2)
      (getOpcodes (pySplitlines t1) (pySplitlines t2)) 0 with
  | none =>
    cases hb2 : lblBuild u2 (pySplitlines t1) (pySplitlines t2)
        (getOpcodes (pySplitlines t1) (pySplitlines t2)) 0 with
    | none => rfl
    | some cs2 => rw [hb1, hb2] at hb; simp_all
  | some cs1 =>
    cases hb2 : lblBuild u2 (pySplitlines t1) (pySplitlines t2)
        (getOpcodes (pySplitlines t1) (pySplitlines t2)) 0 with
    | none => rw [hb1, hb2] at hb; simp_all
    | some cs2 =>
      rw [hb1, hb2] at hb
      simp only [Option.map_some', Option.some.injEq] at hb
      have hs := buildSummary_eraseId cs1 cs2 t1 t2 hb
      simp [eraseIds, hs, hb]

/-- `_semantic_diff` is deterministic up to change ids. -/
theorem semantic_diff_eraseIds (u1 u2 : Nat → String) (t1 t2 : String) (sf : Bool) :
    (semantic_diff u1 t1 t2 sf).map eraseIds =
      (semantic_diff u2 t1 t2 sf).map eraseIds := by
  simp only [semantic_diff]
  have hb := semLoop_eraseId u1 u2
    ((getOpcodes (pySplitlines t1) (pySplitlines t2)).flatMap
      (semRawOp (pySplitlines t1) (pySplitlines t2))) 0 0
  cases hb1 : semLoop u1
      ((getOpcodes (pySplitlines t1) (pySplitlines t2)).flatMap
        (semRawOp (pySplitlines t1) (pySplitlines t2))) 0 with
  | none =>
    cases hb2 : semLoop u2
        ((getOpcodes (pySplitlines t1) (pySplitlines t2)).flatMap
          (semRawOp (pySplitlines t1) (pySplitlines t2))) 0 with
    | none => rfl
    | some cs2 => rw [hb1, hb2] at hb; simp_all
  | some cs1 =>
    cases hb2 : semLoop u2
        ((getOpcodes (pySplitlines t1) (pySplitlines t2)).flatMap
          (semRawOp (pySplitlines t1) (pySplitlines t2))) 0 with
    | none => rw [hb1, hb2] at hb; simp_all
    | some cs2 =>
      rw [hb1, hb2] at hb
      simp only [Option.map_some', Option.some.injEq] at hb
      have hs := buildSummary_eraseId cs1 cs2 t1 t2 hb
      simp [eraseIds, hs, hb]

/-- C3 amended: `compare` is deterministic up to the uuid-generated `id`
field of each change (two runs with any two entropy supplies agree after
erasing change ids, in both reachable modes and including crash behaviour),
and the merge engine's embedding takes no entropy source at all, so
`MergeEngine.merge` is a pure function of documents, strategy and base. -/
theorem compare_deterministic_up_to_ids (u1 u2 : Nat → String)
    (t1 t2 mode : String) (sf : Bool) :
    (compare u1 t1 t2 mode sf).map eraseIds = (compare u2 t1 t2 mode sf).map eraseIds := by
  unfold compare
  by_cases h1 : mode = "line-by-line"
  · simp only [if_pos h1]
    exact line_by_line_diff_eraseIds u1 u2 t1 t2 sf
  · simp only [if_neg h1]
    by_cases h2 : mode = "semantic"
    · simp only [if_pos h2]
      exact semantic_diff_eraseIds u1 u2 t1 t2 sf
    · simp only [if_neg h2]
      exact line_by_line_diff_eraseIds u1 u2 t1 t2 sf

/-- C3 counterexample: two runs of `compare` on identical inputs with
different uuid draws return different `ComparisonResult`s (the `id` field of
the change records differs), so the result is not a deterministic function of
the inputs alone. -/
theorem compare_results_differ_across_runs :
    compare (fun _ => "00000000") "x" "y" "line-by-line" true ≠
      compare (fun _ => "11111111") "x" "y" "line-by-line" true := by
  decide

/-! ### C9: the line aligner produces monotonic, non-crossing matches -/

/-- The parent recorded in a DP cell points one row up, one column left, or
one step up the diagonal. -/
theorem mkCell_parent_shape (diag left up sim : Rat) (i j : Nat) :
    (mkCell diag left up sim i j).2 = none ∨
    (mkCell diag left up sim i j).2 = some (i - 1, j, PAct.skip1) ∨
    (mkCell diag left up sim i j).2 = some (i, j - 1, PAct.skip2) ∨
    (mkCell diag left up sim i j).2 = some (i - 1, j - 1, PAct.matched) := by
  simp only [mkCell]
  repeat' split
  all_goals simp

/-- Shape of the parents along one constructed row. -/
theorem dlRowCells_getD_shape (sim : Nat → Nat → Rat) (prev : List DLCell) (i : Nat) :
    ∀ (count j0 m : Nat) (left : Rat), m < count →
      ((dlRowCells sim prev i count j0 left).getD m (0, none)).2 = none ∨
      ((dlRowCells sim prev i count j0 left).getD m (0, none)).2 =
        some (i - 1, j0 + m, PAct.skip1) ∨
      ((dlRowCells sim prev i count j0 left).getD m (0, none)).2 =
        some (i, j0 + m - 1, PAct.skip2) ∨
      ((dlRowCells sim prev i count j0 left).getD m (0, none)).2 =
        some (i - 1, j0 + m - 1, PAct.matched)
  | 0, _, _, _, hm => absurd hm (Nat.not_lt_zero _)
  | count + 1, j0, 0, left, _ => by
    simp only [dlRowCells, List.getD_cons_zero, Nat.add_zero]
    exact mkCell_parent_shape _ _ _ _ i j0
  | count + 1, j0, m + 1, left, hm => by
    have ih := dlRowCells_getD_shape sim prev i count (j0 + 1) m
      ((mkCell ((prev.getD (j0 - 1) (0, none)).1) left ((prev.getD j0 (0, none)).1)
        (sim (i - 1) (j0 - 1)) i j0).1) (Nat.lt_of_succ_lt_succ hm)
    simp only [dlRowCells, List.getD_cons_succ]
    rw [show j0 + (m + 1) = j0 + 1 + m from by omega]
    exact ih

/-- Lengths of the constructed rows. -/
theorem dlRowCells_length (sim : Nat → Nat → Rat) (prev : List DLCell) (i : Nat) :
    ∀ (count j0 : Nat) (left : Rat), (dlRowCells sim prev i count j0 left).length = count
  | 0, _, _ => rfl
  | count + 1, j0, left => by
    simp [dlRowCells, dlRowCells_length sim prev i count (j0 + 1) _]

/-- Shape of a row lookup (column 0 and out-of-range lookups have no
parent). -/
theorem dlRow_getD_shape (sim : Nat → Nat → Rat) (prev : List DLCell) (i n2 j : Nat) :
    ((dlRow sim prev i n2).getD j (0, none)).2 = none ∨
    (1 ≤ j ∧
      (((dlRow sim prev i n2).getD j (0, none)).2 = some (i - 1, j, PAct.skip1) ∨
       ((dlRow sim prev i n2).getD j (0, none)).2 = some (i, j - 1, PAct.skip2) ∨
       ((dlRow sim prev i n2).getD j (0, none)).2 = some (i - 1, j - 1, PAct.matched))) := by
  cases j with
  | zero => left; rfl
  | succ j0 =>
    simp only [dlRow, List.getD_cons_succ]
    by_cases hj : j0 < n2
    · have h := dlRowCells_getD_shape sim prev i n2 1 j0 0 hj
      rw [show j0 + 1 = 1 + j0 from by omega]
      rcases h with h | h | h | h
      · exact Or.inl h
      · exact Or.inr ⟨by omega, Or.inl h⟩
      · exact Or.inr ⟨by omega, Or.inr (Or.inl h)⟩
      · exact Or.inr ⟨by omega, Or.inr (Or.inr h)⟩
    · left
      rw [List.getD_eq_default _ _ (by rw [dlRowCells_length]; omega)]

/-- Length of the table tail. -/
theorem dlTableAux_length (sim : Nat → Nat → Rat) (n2 : Nat) :
    ∀ (count i0 : Nat) (prev : List DLCell),
      (dlTableAux sim n2 count i0 prev).length = count
  | 0, _, _ => rfl
  | count + 1, i0, prev => by
    simp [dlTableAux, dlTableAux_length sim n2 count (i0 + 1) (dlRow sim prev i0 n2)]

/-- Every row of the table tail is a `dlRow` for the right row index. -/
theorem dlTableAux_getD (sim : Nat → Nat → Rat) (n2 : Nat) :
    ∀ (count i0 m : Nat) (prev : List DLCell), m < count →
      ∃ prevRow, (dlTableAux sim n2 count i0 prev).getD m [] =
        dlRow sim prevRow (i0 + m) n2
  | 0, _, _, _, hm => absurd hm (Nat.not_lt_zero _)
  | count + 1, i0, 0, prev, _ => ⟨prev, by simp [dlTableAux]⟩
  | count + 1, i0, m + 1, prev, hm => by
    obtain ⟨prevRow, hpr⟩ := dlTableAux_getD sim n2 count (i0 + 1) m
      (dlRow sim prev i0 n2) (Nat.lt_of_succ_lt_succ hm)
    refine ⟨prevRow, ?_⟩
    simp only [dlTableAux, List.getD_cons_succ]
    rw [show i0 + (m + 1) = i0 + 1 + m from by omega]
    exact hpr

/-- Shape of every parent lookup in the full table: a parent step moves to
`(i-1, j)`, `(i, j-1)` or `(i-1, j-1)`, and only from cells with `i, j ≥ 1`. -/
theorem parentAt_shape (sim : Nat → Nat → Rat) (n1 n2 i j : Nat) :
    parentAt (dlTable sim n1 n2) i j = none ∨
    (1 ≤ i ∧ 1 ≤ j ∧
      (parentAt (dlTable sim n1 n2) i j = some (i - 1, j, PAct.skip1) ∨
       parentAt (dlTable sim n1 n2) i j = some (i, j - 1, PAct.skip2) ∨
       parentAt (dlTable sim n1 n2) i j = some (i - 1, j - 1, PAct.matched))) := by
  have hnil : ∀ (m : Nat), (([] : List DLCell)).getD m
      ((0 : Rat), (none : Option (Nat × Nat × PAct))) = (0, none) := by
    intro m; cases m <;> rfl
  cases i with
  | zero =>
    left
    unfold parentAt dlTable
    simp only [List.getD_cons_zero]
    have hrep : ∀ (n m : Nat), (List.replicate n
        ((0 : Rat), (none : Option (Nat × Nat × PAct)))).getD m (0, none) = (0, none) := by
      intro n
      induction n with
      | zero => exact hnil
      | succ n ihn =>
        intro m
        cases m with
        | zero => rfl
        | succ m0 =>
          simp only [List.replicate_succ, List.getD_cons_succ]
          exact ihn m0
    rw [hrep]
  | succ i0 =>
    unfold parentAt dlTable
    simp only [List.getD_cons_succ]
    by_cases hi : i0 < n1
    · obtain ⟨prevRow, hpr⟩ := dlTableAux_getD sim n2 n1 1 i0
        (List.replicate (n2 + 1) (0, none)) hi
      rw [hpr]
      have h := dlRow_getD_shape sim prevRow (1 + i0) n2 j
      rw [show i0 + 1 = 1 + i0 from by omega]
      rcases h with h | ⟨hj, h⟩
      · exact Or.inl h
      · exact Or.inr ⟨by omega, hj, h⟩
    · left
      rw [show (dlTableAux sim n2 n1 1 (List.replicate (n2 + 1) (0, none))).getD i0 [] =
          [] from List.getD_eq_default _ _ (by rw [dlTableAux_length]; omega), hnil]

/-- Bounds and strict pairwise decrease of the backtracking output: every
produced pair lies strictly below the current position, and the produced list
is strictly decreasing in both coordinates. -/
theorem backtrackAux_bounded_chain (parent : Nat → Nat → Option (Nat × Nat × PAct))
    (shape : ∀ i j, parent i j = none ∨
      (1 ≤ i ∧ 1 ≤ j ∧
        (parent i j = some (i - 1, j, PAct.skip1) ∨
         parent i j = some (i, j - 1, PAct.skip2) ∨
         parent i j = some (i - 1, j - 1, PAct.matched)))) :
    ∀ (fuel i j : Nat),
      (∀ p ∈ backtrackAux parent fuel i j, p.1 < i ∧ p.2 < j) ∧
      List.Pairwise (fun p q : Nat × Nat => q.1 < p.1 ∧ q.2 < p.2)
        (backtrackAux parent fuel i j)
  | 0, i, j => by simp [backtrackAux]
  | fuel + 1, i, j => by
    by_cases hz : i = 0 ∨ j = 0
    · simp [backtrackAux, hz]
    · rcases shape i j with hnone | ⟨hi, hj, hcase⟩
      · rw [backtrackAux, if_neg hz]
        simp only [hnone]
        simp
      · have hib : i - 1 < i := by omega
        have hjb : j - 1 < j := by omega
        rcases hcase with hc | hc | hc
        · have ih := backtrackAux_bounded_chain parent shape fuel (i - 1) j
          rw [backtrackAux, if_neg hz]
          simp only [hc, reduceIte]
          exact ⟨fun p hmem => ⟨Nat.lt_trans (ih.1 p hmem).1 hib, (ih.1 p hmem).2⟩, ih.2⟩
        · have ih := backtrackAux_bounded_chain parent shape fuel i (j - 1)
          rw [backtrackAux, if_neg hz]
          simp only [hc, reduceIte]
          exact ⟨fun p hmem => ⟨(ih.1 p hmem).1, Nat.lt_trans (ih.1 p hmem).2 hjb⟩, ih.2⟩
        · have ih := backtrackAux_bounded_chain parent shape fuel (i - 1) (j - 1)
          rw [backtrackAux, if_neg hz]
          simp only [hc, reduceIte]
          constructor
          · intro p hmem
            rcases List.mem_cons.mp hmem with rfl | hmem
            · exact ⟨hib, hjb⟩
            · exact ⟨Nat.lt_trans (ih.1 p hmem).1 hib, Nat.lt_trans (ih.1 p hmem).2 hjb⟩
          · refine List.Pairwise.cons (fun q hq => ?_) ih.2
            exact ⟨(ih.1 q hq).1, (ih.1 q hq).2⟩

/-- C9: the matches returned by `_find_line_matches` are monotonic and
non-crossing — strictly increasing in both coordinates pairwise — and every
matched index is within bounds of its line list. -/
theorem find_line_matches_monotone (lines1 lines2 : List String) :
    List.Pairwise (fun p q : Nat × Nat => p.1 < q.1 ∧ p.2 < q.2)
      (find_line_matches lines1 lines2) ∧
    (find_line_matches lines1 lines2).all
      (fun p => decide (p.1 < lines1.length) && decide (p.2 < lines2.length)) = true := by
  unfold find_line_matches
  by_cases hz : lines1.length = 0 ∨ lines2.length = 0
  · rw [if_pos hz]
    simp
  · rw [if_neg hz]
    have hmain := backtrackAux_bounded_chain
      (parentAt (dlTable (simEntry lines1 lines2) lines1.length lines2.length))
      (parentAt_shape (simEntry lines1 lines2) lines1.length lines2.length)
      (lines1.length + lines2.length + 1) lines1.length lines2.length
    constructor
    · rw [List.pairwise_reverse]
      exact hmain.2
    · rw [List.all_eq_true]
      intro p hp
      have hmem := List.mem_reverse.mp hp
      have hb := hmain.1 p hmem
      simp [hb.1, hb.2]

end DocCompare
